import Mathlib

/-!
Verification development for the newsletter repository's aggregation core
(`scripts/aggregations/bs_aggregations.py` and `scripts/aggregations/ra_aggregations.py`).

Modelling conventions:
* pandas float measures are modelled as exact integers (`ℤ`); the properties at
  stake (grouping, summation, sign tests, top-N selection, ordering, scale
  thresholds, decimal rounding) are exact-arithmetic properties.  Percentage
  changes, which are genuine ratios, are modelled as exact rationals built with
  `Rat.divInt`.
* `df.groupby(cols, as_index=False)[...].sum()` (pandas default `sort=True`)
  produces one record per distinct key, listed in ascending lexicographic key
  order; keys are modelled as `List String` ordered lexicographically by
  code points, matching pandas/NumPy ordering of Python strings.
* Python's `sorted` (stable, Timsort) is modelled by the stable insertion sort
  `isortBy`; `sorted(..., reverse=True)` and `DataFrame.nlargest(n, col)`
  (tie policy `keep='first'`) are the same sort with the flipped strict
  comparison, followed by `List.take`.
* Python dicts are modelled as association lists (`List (String × Val)`) with
  insertion-order semantics: assignment of an existing key updates in place,
  assignment of a fresh key appends.
* A Python `TypeError` (e.g. `abs` of a string) is modelled by `Option`:
  `none` means the function raises.
-/

namespace BS

/-! ## Stable sorting and selection machinery

`insBy r x l` inserts `x` after every element `y` with `r y x = true`;
`isortBy r` is the resulting stable insertion sort.  With
`r y x := decide (key y < key x)` this is Python's stable ascending
`sorted(l, key=key)`; with `r y x := decide (key x < key y)` it is the stable
descending `sorted(l, key=key, reverse=True)`.

`selBy r` selects the earliest element that every later element fails to beat
(the stable extremum); `selTake r n` repeats it `n` times.  These are the
"spec side" description of what `take n` of the stable sort returns. -/

section SortSelect

variable {G : Type} (r : G → G → Bool)

def insBy (x : G) : List G → List G
  | [] => [x]
  | y :: ys => if r y x then y :: insBy x ys else x :: y :: ys

def isortBy (l : List G) : List G := l.foldr (insBy r) []

def selBy : List G → Option (G × List G)
  | [] => none
  | g :: gs =>
    match selBy gs with
    | none => some (g, [])
    | some (m, rest) => if r m g then some (m, g :: rest) else some (g, gs)

def selTake : ℕ → List G → List G
  | 0, _ => []
  | n + 1, l =>
    match selBy r l with
    | none => []
    | some (m, rest) => m :: selTake n rest

end SortSelect

/-! ## String and key ordering

pandas sorts object-dtype group keys with Python string comparison, i.e.
lexicographically by code points; multi-column keys compare column by column.
`decide` on Mathlib's `String` order does not reduce in the kernel, so the
same order is implemented directly on the character data. -/

def chListLt : List Char → List Char → Bool
  | [], [] => false
  | [], _ :: _ => true
  | _ :: _, [] => false
  | c :: cs, d :: ds =>
    if c.toNat < d.toNat then true
    else if d.toNat < c.toNat then false
    else chListLt cs ds

def strLtB (a b : String) : Bool := chListLt a.data b.data

def keyLtB : List String → List String → Bool
  | [], [] => false
  | [], _ :: _ => true
  | _ :: _, [] => false
  | a :: as, b :: bs =>
    if strLtB a b then true
    else if strLtB b a then false
    else keyLtB as bs

/-! ## Balance-sheet data model (`bs_aggregations.build_bs_nested_hierarchy`)

One `BsRow` is one row of the input DataFrame `df`.  The three measures
`BUSINESS_DAY` (current), `PREVIOUS_DAY` (prior) and `MTD` (month-to-date)
are modelled as exact integers. -/

structure BsRow where
  MGT_LINE_DESCRIPTION : String
  SOURCE_MGT_LINE : String
  SOURCE_MGT_LINE_DESC : String
  MRL_LINE : String
  MRL_DESCRIPTION : String
  CUSTOMER_ID : String
  CUSTOMER_NAME : String
  ACCOUNT_OFFICER : String
  AO_NAME : String
  BUSINESS_DAY : ℤ
  PREVIOUS_DAY : ℤ
  MTD : ℤ
  deriving DecidableEq, Repr

/-- Percentage change `(bd - pd) / pd * 100`, with a prior of exactly zero
first replaced by the pandas missing value — the source applies
`.replace` sending `0` to `pd.NA` to the `PREVIOUS_DAY` column — so the
result is the absent sentinel `none` rather than a division by zero.  The
exact rational `(bd - pd) * 100 / pd` equals the source's
`(bd - pd) / pd * 100`. -/
def pctChange (bd pd : ℤ) : Option ℚ :=
  if pd = 0 then none else some (Rat.divInt ((bd - pd) * 100) pd)

/-- Summing one numeric column over a list of rows (`DataFrame.sum`). -/
def sumZ {α : Type} (f : α → ℤ) (rows : List α) : ℤ := (rows.map f).sum

/-- The distinct key tuples of `rows` under key function `k`, in ascending
lexicographic key order: the record order of
`df.groupby(cols, as_index=False)[...].sum()` with pandas' default
`sort=True`. -/
def groupKeys {α : Type} (k : α → List String) (rows : List α) : List (List String) :=
  isortBy keyLtB ((rows.map k).dedup)

/-- Row filtering `df = df[~df['SOURCE_MGT_LINE_DESC'].isin(exclude_lines)]`. -/
def filteredRows (rows : List BsRow) (excludeLines : List String) : List BsRow :=
  rows.filter fun r => !(excludeLines.contains r.SOURCE_MGT_LINE_DESC)

/-- A record of `top_level_sums` (grouped on `MGT_LINE_DESCRIPTION` only). -/
structure TopGroup where
  MGT_LINE_DESCRIPTION : String
  BUSINESS_DAY : ℤ
  PREVIOUS_DAY : ℤ
  TL_MTD : ℤ
  TL_CHANGE : ℤ
  TL_PCT_CHANGE : Option ℚ
  deriving DecidableEq, Repr

/-- A record of `source_sums` (grouped on management line, source line code
and source line label). -/
structure SrcGroup where
  MGT_LINE_DESCRIPTION : String
  SOURCE_MGT_LINE : String
  SOURCE_MGT_LINE_DESC : String
  BUSINESS_DAY : ℤ
  PREVIOUS_DAY : ℤ
  SRC_MTD : ℤ
  SRC_CHANGE : ℤ
  SRC_PCT_CHANGE : Option ℚ
  deriving DecidableEq, Repr

/-- A record of `mrl_sums` (grouped on management line, source line code and
MRL line code). -/
structure MrlGroup where
  MGT_LINE_DESCRIPTION : String
  SOURCE_MGT_LINE : String
  MRL_LINE : String
  BUSINESS_DAY : ℤ
  PREVIOUS_DAY : ℤ
  MRL_MTD : ℤ
  MRL_CHANGE : ℤ
  MRL_PCT_CHANGE : Option ℚ
  deriving DecidableEq, Repr

/-- A record of `customer_sums` (grouped on the eight identity columns; no
month-to-date at this level). -/
structure CustGroup where
  MGT_LINE_DESCRIPTION : String
  SOURCE_MGT_LINE : String
  MRL_LINE : String
  MRL_DESCRIPTION : String
  CUSTOMER_ID : String
  CUSTOMER_NAME : String
  ACCOUNT_OFFICER : String
  AO_NAME : String
  BUSINESS_DAY : ℤ
  PREVIOUS_DAY : ℤ
  CUST_CHANGE : ℤ
  CUST_PCT_CHANGE : Option ℚ
  deriving DecidableEq, Repr

def topKey (r : BsRow) : List String := [r.MGT_LINE_DESCRIPTION]

def srcKey (r : BsRow) : List String :=
  [r.MGT_LINE_DESCRIPTION, r.SOURCE_MGT_LINE, r.SOURCE_MGT_LINE_DESC]

def mrlKey (r : BsRow) : List String :=
  [r.MGT_LINE_DESCRIPTION, r.SOURCE_MGT_LINE, r.MRL_LINE]

def custKey (r : BsRow) : List String :=
  [r.MGT_LINE_DESCRIPTION, r.SOURCE_MGT_LINE, r.MRL_LINE, r.MRL_DESCRIPTION,
   r.CUSTOMER_ID, r.CUSTOMER_NAME, r.ACCOUNT_OFFICER, r.AO_NAME]

/-- Level 0: `top_level_sums`, computed on ALL rows, before the exclusion
filter is applied (source lines 50-55). -/
def top_level_sums (rows : List BsRow) : List TopGroup :=
  (groupKeys topKey rows).map fun k =>
    let rs := rows.filter fun r => topKey r == k
    let bd := sumZ BsRow.BUSINESS_DAY rs
    let pd := sumZ BsRow.PREVIOUS_DAY rs
    { MGT_LINE_DESCRIPTION := k.getD 0 ""
      BUSINESS_DAY := bd
      PREVIOUS_DAY := pd
      TL_MTD := sumZ BsRow.MTD rs
      TL_CHANGE := bd - pd
      TL_PCT_CHANGE := pctChange bd pd }

/-- Level 1: `source_sums`, computed on the exclusion-filtered rows
(source lines 57-64). -/
def source_sums (rows : List BsRow) (excludeLines : List String) : List SrcGroup :=
  let dfrows := filteredRows rows excludeLines
  (groupKeys srcKey dfrows).map fun k =>
    let rs := dfrows.filter fun r => srcKey r == k
    let bd := sumZ BsRow.BUSINESS_DAY rs
    let pd := sumZ BsRow.PREVIOUS_DAY rs
    { MGT_LINE_DESCRIPTION := k.getD 0 ""
      SOURCE_MGT_LINE := k.getD 1 ""
      SOURCE_MGT_LINE_DESC := k.getD 2 ""
      BUSINESS_DAY := bd
      PREVIOUS_DAY := pd
      SRC_MTD := sumZ BsRow.MTD rs
      SRC_CHANGE := bd - pd
      SRC_PCT_CHANGE := pctChange bd pd }

/-- Level 2b: `mrl_sums`, computed on the exclusion-filtered rows
(source lines 70-76). -/
def mrl_sums (rows : List BsRow) (excludeLines : List String) : List MrlGroup :=
  let dfrows := filteredRows rows excludeLines
  (groupKeys mrlKey dfrows).map fun k =>
    let rs := dfrows.filter fun r => mrlKey r == k
    let bd := sumZ BsRow.BUSINESS_DAY rs
    let pd := sumZ BsRow.PREVIOUS_DAY rs
    { MGT_LINE_DESCRIPTION := k.getD 0 ""
      SOURCE_MGT_LINE := k.getD 1 ""
      MRL_LINE := k.getD 2 ""
      BUSINESS_DAY := bd
      PREVIOUS_DAY := pd
      MRL_MTD := sumZ BsRow.MTD rs
      MRL_CHANGE := bd - pd
      MRL_PCT_CHANGE := pctChange bd pd }

/-- Level 2a: `customer_sums`, computed on the exclusion-filtered rows over
current and prior only (source lines 79-93). -/
def customer_sums (rows : List BsRow) (excludeLines : List String) : List CustGroup :=
  let dfrows := filteredRows rows excludeLines
  (groupKeys custKey dfrows).map fun k =>
    let rs := dfrows.filter fun r => custKey r == k
    let bd := sumZ BsRow.BUSINESS_DAY rs
    let pd := sumZ BsRow.PREVIOUS_DAY rs
    { MGT_LINE_DESCRIPTION := k.getD 0 ""
      SOURCE_MGT_LINE := k.getD 1 ""
      MRL_LINE := k.getD 2 ""
      MRL_DESCRIPTION := k.getD 3 ""
      CUSTOMER_ID := k.getD 4 ""
      CUSTOMER_NAME := k.getD 5 ""
      ACCOUNT_OFFICER := k.getD 6 ""
      AO_NAME := k.getD 7 ""
      BUSINESS_DAY := bd
      PREVIOUS_DAY := pd
      CUST_CHANGE := bd - pd
      CUST_PCT_CHANGE := pctChange bd pd }

/-! ## Step 2 of the source: POS / NEG counterparties per (category, source)

The source walks `customer_sums.to_dict("records")` (ascending key order),
keeps the records of the two asset/liability categories, and appends each to
the `POS` bucket of its `(MGT_LINE_DESCRIPTION, SOURCE_MGT_LINE)` key when
`CUST_CHANGE >= 0`, else to the `NEG` bucket; then `POS` is reduced to
`sorted(POS, key=CUST_CHANGE, reverse=True)[:1]` and `NEG` to
`sorted(NEG, key=CUST_CHANGE)[:2]`.  Filtering the record list by key
preserves its order, so the buckets are the filters below. -/

def isAssetLiability (mgt : String) : Bool :=
  mgt == "Total Assets" || mgt == "Total Liability"

def pos_bucket (rows : List BsRow) (excludeLines : List String)
    (mgt src : String) : List CustGroup :=
  (customer_sums rows excludeLines).filter fun g =>
    isAssetLiability g.MGT_LINE_DESCRIPTION && g.MGT_LINE_DESCRIPTION == mgt &&
      g.SOURCE_MGT_LINE == src && decide (0 ≤ g.CUST_CHANGE)

def neg_bucket (rows : List BsRow) (excludeLines : List String)
    (mgt src : String) : List CustGroup :=
  (customer_sums rows excludeLines).filter fun g =>
    isAssetLiability g.MGT_LINE_DESCRIPTION && g.MGT_LINE_DESCRIPTION == mgt &&
      g.SOURCE_MGT_LINE == src && decide (g.CUST_CHANGE < 0)

/-- Stable descending comparison on `CUST_CHANGE`:
`sorted(..., key=CUST_CHANGE, reverse=True)`. -/
def custChangeDescR (y x : CustGroup) : Bool := decide (x.CUST_CHANGE < y.CUST_CHANGE)

/-- Stable ascending comparison on `CUST_CHANGE`: `sorted(..., key=CUST_CHANGE)`. -/
def custChangeAscR (y x : CustGroup) : Bool := decide (y.CUST_CHANGE < x.CUST_CHANGE)

/-- The reduced `POS` bucket (`POSITIVE_CUSTOMERS` of the node). -/
def positive_customers (rows : List BsRow) (excludeLines : List String)
    (mgt src : String) : List CustGroup :=
  (isortBy custChangeDescR (pos_bucket rows excludeLines mgt src)).take 1

/-- The reduced `NEG` bucket (`NEGATIVE_CUSTOMERS` of the node). -/
def negative_customers (rows : List BsRow) (excludeLines : List String)
    (mgt src : String) : List CustGroup :=
  (isortBy custChangeAscR (neg_bucket rows excludeLines mgt src)).take 2

/-! ## Step 3 of the source for income/expense: significant MRLs -/

def isIncomeExpense (mgt : String) : Bool :=
  mgt == "Total Expense" || mgt == "Total Income"

/-- `mrl_description_lookup` (source line 111): first-seen-wins lookup from
`(MGT_LINE_DESCRIPTION, SOURCE_MGT_LINE, MRL_LINE)` to `MRL_DESCRIPTION`,
built with `drop_duplicates` (default `keep='first'`) over the filtered
rows. -/
def mrl_description_lookup (rows : List BsRow) (excludeLines : List String)
    (key : List String) : Option String :=
  ((filteredRows rows excludeLines).find? fun r => mrlKey r == key).map
    (·.MRL_DESCRIPTION)

/-- An MRL record with the re-attached human `MRL_DESCRIPTION`
(`positive_mrls` after the `.loc` column assignment). -/
structure SigMrl where
  MGT_LINE_DESCRIPTION : String
  SOURCE_MGT_LINE : String
  MRL_LINE : String
  MRL_DESCRIPTION : String
  BUSINESS_DAY : ℤ
  PREVIOUS_DAY : ℤ
  MRL_MTD : ℤ
  MRL_CHANGE : ℤ
  MRL_PCT_CHANGE : Option ℚ
  deriving DecidableEq, Repr

/-- `positive_mrls` for one `(mgt, src)` key: the MRL groups of that key with
`MRL_MTD > 0`, with the human label re-attached from the lookup (a missing
lookup key falls back to the record's own absent description, rendered `"-"`
by `Series.get` with that default in the source). -/
def significant_candidates (rows : List BsRow) (excludeLines : List String)
    (mgt src : String) : List SigMrl :=
  ((mrl_sums rows excludeLines).filter fun g =>
    g.MGT_LINE_DESCRIPTION == mgt && g.SOURCE_MGT_LINE == src &&
      decide (0 < g.MRL_MTD)).map fun g =>
    { MGT_LINE_DESCRIPTION := g.MGT_LINE_DESCRIPTION
      SOURCE_MGT_LINE := g.SOURCE_MGT_LINE
      MRL_LINE := g.MRL_LINE
      MRL_DESCRIPTION :=
        (mrl_description_lookup rows excludeLines [mgt, src, g.MRL_LINE]).getD "-"
      BUSINESS_DAY := g.BUSINESS_DAY
      PREVIOUS_DAY := g.PREVIOUS_DAY
      MRL_MTD := g.MRL_MTD
      MRL_CHANGE := g.MRL_CHANGE
      MRL_PCT_CHANGE := g.MRL_PCT_CHANGE }

/-- Stable descending comparison on `MRL_MTD`: `nlargest(2, "MRL_MTD")` with
its default tie policy prioritising the first occurrence. -/
def mrlMtdDescR (y x : SigMrl) : Bool := decide (x.MRL_MTD < y.MRL_MTD)

/-- `SIGNIFICANT_MRLS` for one `(mgt, src)` key, attached only for the two
income/expense categories; empty when no MRL of the key has positive
month-to-date (source lines 134-149). -/
def significant_mrls (rows : List BsRow) (excludeLines : List String)
    (mgt src : String) : List SigMrl :=
  if isIncomeExpense mgt then
    (isortBy mrlMtdDescR (significant_candidates rows excludeLines mgt src)).take 2
  else []

/-! ## Scale formatter (`_CURRENCY_SYMBOLS`, `format_scaled_amount`,
`_get_scale_info`, `_get_scale_info_fixed`, `_format_fixed_scale`)

Number rendering models Python's format spec `,.Nf`: round the exact value
half-to-even at `N` decimal places, group the integer digits in threes with
commas, keep the sign inside the rendered number.  Values being exact
integers (or integers divided by a power of ten), the rounding is exact. -/

def _CURRENCY_SYMBOLS : List (String × String) :=
  [("USD", "$"), ("EUR", "€"), ("GBP", "£"), ("JPY", "¥"),
   ("INR", "₹"), ("CNY", "¥"), ("AUD", "A$"), ("CAD", "C$")]

/-- ASCII upper-casing of `str.upper()` as used on currency codes. -/
def upChar (c : Char) : Char :=
  if 97 ≤ c.toNat ∧ c.toNat ≤ 122 then Char.ofNat (c.toNat - 32) else c

def strUpper (s : String) : String := String.mk (s.data.map upChar)

/-- `_CURRENCY_SYMBOLS.get(currency_type.upper(), f"{currency_type} ") if
currency_type else ""`. -/
def symbolOf (ct : String) : String :=
  if ct == "" then ""
  else ((_CURRENCY_SYMBOLS.lookup (strUpper ct)).getD (ct ++ " "))

def digitChar (d : ℕ) : Char := Char.ofNat (48 + d)

/-- Decimal digits of `n`, least significant first (fuel-based so the kernel
can evaluate it). -/
def digitsRev : ℕ → ℕ → List Char
  | 0, _ => []
  | f + 1, n =>
    if n < 10 then [digitChar n]
    else digitChar (n % 10) :: digitsRev f (n / 10)

/-- Insert a comma after every three digits, working on the reversed digit
list; `k` counts digits already emitted in the current group. -/
def groupRev : List Char → ℕ → List Char
  | [], _ => []
  | c :: cs, k =>
    if k == 2 then c :: (if cs.isEmpty then [] else ',' :: groupRev cs 0)
    else c :: groupRev cs (k + 1)

/-- `n` written in decimal with thousands separators. -/
def natStrGrouped (n : ℕ) : String :=
  String.mk ((groupRev (digitsRev (n + 1) n) 0).reverse)

/-- `n` written in decimal, no separators. -/
def natStrPlain (n : ℕ) : String := String.mk (digitsRev (n + 1) n).reverse

def padLeftZeros (s : String) (w : ℕ) : String :=
  String.mk (List.replicate (w - s.data.length) '0' ++ s.data)

/-- Round-half-even of the exact quotient `a / b` (`b > 0`): the rounding of
Python's float formatting, exact on our inputs. -/
def rheDiv (a : ℤ) (b : ℕ) : ℤ :=
  let q := Int.fdiv a (b : ℤ)
  let r := a - q * (b : ℤ)
  if 2 * r < (b : ℤ) then q
  else if (b : ℤ) < 2 * r then q + 1
  else if q % 2 = 0 then q else q + 1

/-- Python `format(v / divisor, ",.{dp}f")` for an integer `v` and a
power-of-ten `divisor`. -/
def renderFixed (v : ℤ) (divisor : ℕ) (dp : ℕ) : String :=
  let n := rheDiv (v * (10 : ℤ) ^ dp) divisor
  let m := n.natAbs
  let ip := m / 10 ^ dp
  let fp := m % 10 ^ dp
  (if n < 0 then "-" else "") ++ natStrGrouped ip ++
    (if dp == 0 then "" else "." ++ padLeftZeros (natStrPlain fp) dp)

/-- `format_scaled_amount` (source lines 197-227): fixed-scale thresholds on
`abs(value)`, then `f"{symbol}{sign}{formatted}{scale}"` where `formatted`
is the 2-decimal rendering of the signed `value / divisor` and `sign` is an
additional `"-"` whenever `value < 0`. -/
def format_scaled_amount (value : Option ℤ) (currency_type : String) : String :=
  match value with
  | none => "0"
  | some v =>
    let symbol := symbolOf currency_type
    let a := v.natAbs
    let sd : String × ℕ :=
      if a ≥ 10 ^ 12 then ("T", 10 ^ 12)
      else if a ≥ 10 ^ 9 then ("B", 10 ^ 9)
      else if a ≥ 10 ^ 6 then ("M", 10 ^ 6)
      else if a ≥ 10 ^ 3 then ("K", 10 ^ 3)
      else ("", 1)
    symbol ++ (if v < 0 then "-" else "") ++ renderFixed v sd.2 2 ++ sd.1

/-- `_get_scale_info` (source lines 234-244), over exact rationals: `none`
and values with `|v| < 1e3` get divisor 1; otherwise the loop over
`[(1e12,"T"), (1e9,"B"), (1e6,"M"), (1e3,"K")]` returns the first divisor
with `|v| / divisor >= 10`, and divisor 1 if none qualifies. -/
def _get_scale_info (val : Option ℚ) : ℚ × String :=
  match val with
  | none => (1, "")
  | some v =>
    let a := |v|
    if a < 1000 then (1, "")
    else if 10 ≤ a / 1000000000000 then (1000000000000, "T")
    else if 10 ≤ a / 1000000000 then (1000000000, "B")
    else if 10 ≤ a / 1000000 then (1000000, "M")
    else if 10 ≤ a / 1000 then (1000, "K")
    else (1, "")

/-- `_get_scale_info` specialised to integer values (the formatter's change
values are modelled as integers); `|v| / d >= 10` for a power of ten `d`
is exactly `10 * d ≤ |v|`.  `get_scale_info_z_agrees` below proves this
agrees with the rational version. -/
def _get_scale_info_z (val : Option ℤ) : ℕ × String :=
  match val with
  | none => (1, "")
  | some v =>
    let a := v.natAbs
    if a < 1000 then (1, "")
    else if 10 * 10 ^ 12 ≤ a then (10 ^ 12, "T")
    else if 10 * 10 ^ 9 ≤ a then (10 ^ 9, "B")
    else if 10 * 10 ^ 6 ≤ a then (10 ^ 6, "M")
    else if 10 * 10 ^ 3 ≤ a then (10 ^ 3, "K")
    else (1, "")

/-- `_get_scale_info_fixed` (source lines 246-259), on integer values. -/
def _get_scale_info_fixed_z (val : Option ℤ) : ℕ × String :=
  match val with
  | none => (1, "")
  | some v =>
    let a := v.natAbs
    if 10 ^ 12 ≤ a then (10 ^ 12, "T")
    else if 10 ^ 9 ≤ a then (10 ^ 9, "B")
    else if 10 ^ 6 ≤ a then (10 ^ 6, "M")
    else if 10 ^ 3 ≤ a then (10 ^ 3, "K")
    else (1, "")


/-! ## Dict formatter (`_format_dict`, source lines 270-334)

A node of the nested structure is a Python dict, modelled as an ordered
association list.  Only flat values occur in the keys the formatter touches;
child lists (`SIGNIFICANT_SOURCES`, `SIGNIFICANT_MRLS`,
`POSITIVE_CUSTOMERS`, `NEGATIVE_CUSTOMERS`) receive the same per-node
transformation recursively (source lines 322-334), so the per-node claims
are stated about the single-node transformation. -/

inductive Val where
  | vnum : ℤ → Val
  | vstr : String → Val
  | vnull : Val
  deriving DecidableEq, Repr

abbrev Obj := List (String × Val)

def hasKey (d : Obj) (k : String) : Bool := d.any fun p => p.1 == k

def lookupV (d : Obj) (k : String) : Option Val :=
  (d.find? fun p => p.1 == k).map (·.2)

/-- Python dict assignment: update in place when the key exists, append
otherwise. -/
def upsert (d : Obj) (k : String) (v : Val) : Obj :=
  match d with
  | [] => [(k, v)]
  | (k0, v0) :: rest => if k0 == k then (k, v) :: rest else (k0, v0) :: upsert rest k v

/-- Whether the character list `a` is an initial run of `b`. -/
def chInit : List Char → List Char → Bool
  | [], _ => true
  | _ :: _, [] => false
  | a :: as, b :: bs => a == b && chInit as bs

/-- `str.endswith`, on character data so the kernel can evaluate it. -/
def strEndsWith (s p : String) : Bool := chInit p.data.reverse s.data.reverse

def isChangeKey (k : String) : Bool :=
  strEndsWith k "_CHANGE" && !(strEndsWith k "_PCT_CHANGE")

def isPctKey (k : String) : Bool := strEndsWith k "_PCT_CHANGE"

/-- `_format_fixed_scale` (source lines 261-268): `None` renders as `"0"`;
a numeric value renders as `f"{symbol}{formatted}{suffix}"` (the sign stays
inside `formatted`); a non-numeric value raises (`none`). -/
def _format_fixed_scale (ct : String) (v : Val) (divisor : ℕ) (suf : String)
    (dp : ℕ) : Option String :=
  match v with
  | .vnull => some "0"
  | .vnum z => some (symbolOf ct ++ renderFixed z divisor dp ++ suf)
  | .vstr _ => none

/-- `_get_scale_info` applied to a dict value: `abs` of a string raises. -/
def scaleInfoOfVal (v : Val) : Option (ℕ × String) :=
  match v with
  | .vnull => some (1, "")
  | .vnum z => some (_get_scale_info_z (some z))
  | .vstr _ => none

/-- `_get_scale_info_fixed` applied to a dict value. -/
def scaleInfoFixedOfVal (v : Val) : Option (ℕ × String) :=
  match v with
  | .vnull => some (1, "")
  | .vnum z => some (_get_scale_info_fixed_z (some z))
  | .vstr _ => none

/-- Python `f"{x:.2f}"` (no thousands separators) for integer `x`. -/
def renderPlain (v : ℤ) (dp : ℕ) : String :=
  let n := v * (10 : ℤ) ^ dp
  let m := n.natAbs
  (if n < 0 then "-" else "") ++ natStrPlain (m / 10 ^ dp) ++
    (if dp == 0 then "" else "." ++ padLeftZeros (natStrPlain (m % 10 ^ dp)) dp)

/-- First loop of `_format_dict` (source lines 276-290): every `*_CHANGE`
(not `*_PCT_CHANGE`) key with a non-null value emits
`new_dict[f"{direction}_Amount"]` and (re)sets the relative divisor/suffix;
the loop's state is `(new_dict, last relative scale)`. -/
def chgFold (ct : String) : Obj → Obj → Option (ℕ × String) →
    Option (Obj × Option (ℕ × String))
  | [], nd, rel => some (nd, rel)
  | (k, v) :: rest, nd, rel =>
    if isChangeKey k && !(v == Val.vnull) then
      match v with
      | .vnum z =>
        let dir := if z < 0 then "Decrease" else "Increase"
        let ds := _get_scale_info_z (some z)
        match _format_fixed_scale ct (.vnum (if z < 0 then -z else z)) ds.1 ds.2 0 with
        | none => none
        | some s => chgFold ct rest (upsert nd (dir ++ "_Amount") (.vstr s)) (some ds)
      | _ => none
    else chgFold ct rest nd rel

/-- Second loop of `_format_dict` (source lines 293-298): every
`*_PCT_CHANGE` key with a non-null value emits
`new_dict[f"{direction}_Percentage"] = f"{abs(val):.2f}%"`. -/
def pctFold : Obj → Obj → Option Obj
  | [], nd => some nd
  | (k, v) :: rest, nd =>
    if isPctKey k && !(v == Val.vnull) then
      match v with
      | .vnum z =>
        let dir := if z < 0 then "Decrease" else "Increase"
        pctFold rest
          (upsert nd (dir ++ "_Percentage") (.vstr (renderPlain (if z < 0 then -z else z) 2 ++ "%")))
      | _ => none
    else pctFold rest nd

/-- The rendering stored under an amount key's original name: the shared
relative scale when one was set, else the string `"N/A"`
(source lines 303-307). -/
def relRender (ct : String) (rel : Option (ℕ × String)) (v : Val) : Option String :=
  match rel with
  | some ds => _format_fixed_scale ct v ds.1 ds.2 0
  | none => some "N/A"

/-- The rendering stored under `<key>_FIX`: fixed-scale policy on the value
itself, 2 decimals (source lines 310-311). -/
def fixRender (ct : String) (v : Val) : Option String :=
  match scaleInfoFixedOfVal v with
  | none => none
  | some fds => _format_fixed_scale ct v fds.1 fds.2 2

/-- The hard-coded amount-key list of the third loop (source line 301).
Note it does NOT contain `MRL_MTD`, although the `amount_keys` default of
`format_nested_amounts` does. -/
def amtNames : List String := ["BUSINESS_DAY", "PREVIOUS_DAY", "SRC_MTD", "TL_MTD"]

/-- Third loop of `_format_dict` (source lines 301-311): for each hard-coded
amount key present in `d`, store the relative-scale rendering under the
original key (the string `"N/A"` when no relative scale was set) and the
independent fixed-scale 2-decimal rendering under `<key>_FIX`. -/
def amtFold (ct : String) (d : Obj) (rel : Option (ℕ × String)) :
    List String → Obj → Option Obj
  | [], nd => some nd
  | k :: ks, nd =>
    if hasKey d k && !(strEndsWith k "_PCT_CHANGE") then
      let v := (lookupV d k).getD Val.vnull
      match relRender ct rel v with
      | none => none
      | some rs =>
        match fixRender ct v with
        | none => none
        | some fs =>
          amtFold ct d rel ks (upsert (upsert nd k (.vstr rs)) (k ++ "_FIX") (.vstr fs))
    else amtFold ct d rel ks nd

/-- Fourth loop of `_format_dict` (source lines 314-316): copy the remaining
keys unchanged, skipping keys already present and every `*_CHANGE` /
`*_PCT_CHANGE` key. -/
def passFold : Obj → Obj → Obj
  | [], nd => nd
  | (k, v) :: rest, nd =>
    if hasKey nd k || strEndsWith k "_CHANGE" || strEndsWith k "_PCT_CHANGE" then
      passFold rest nd
    else passFold rest (nd ++ [(k, v)])

/-- `_format_dict` on one node: the four loops in source order; `none`
models a raised `TypeError`. -/
def _format_dict (d : Obj) (ct : String) : Option Obj :=
  match chgFold ct d [] none with
  | none => none
  | some (nd1, rel) =>
    match pctFold d nd1 with
    | none => none
    | some nd2 =>
      match amtFold ct d rel amtNames nd2 with
      | none => none
      | some nd3 => some (passFold d nd3)

/-! ## Top-level reordering of `format_nested_amounts` (source lines 359-376, 426)

`float('inf')` for categories outside the table is modelled by the priority
value 4: only the order of priorities matters and the four table entries have
priorities 0-3. -/

def topPriority (d : Obj) : ℕ :=
  match lookupV d "MGT_LINE_DESCRIPTION" with
  | some (.vstr s) =>
    if s == "Total Assets" then 0
    else if s == "Total Liability" then 1
    else if s == "Total Income" then 2
    else if s == "Total Expense" then 3
    else 4
  | _ => 4

def topOrderR (y x : Obj) : Bool := decide (topPriority y < topPriority x)

/-- `sorted(processed_json, key=get_top_level_priority)` (source line 426). -/
def sortTopLevel (l : List Obj) : List Obj := isortBy topOrderR l

/-! ## Leakage aggregator (`ra_aggregations.py`) -/

structure RaRow where
  BUSINESS_LINE_DESCRIPTION : String
  SBU_DESCRIPTION : String
  VISION_OUC_DESCRIPTION : String
  AO_NAME : String
  CHANNEL_TYPE_DESCRIPTION : String
  CUSTOMER_ID : String
  CUSTOMER_NAME : String
  CONTRACT_ID : String
  CCY_TYPE : String
  BAL_TYPE : ℤ
  BUSINESS_DAY : ℤ
  MTD : ℤ
  deriving DecidableEq, Repr

structure SocGroup where
  BUSINESS_LINE_DESCRIPTION : String
  SBU_DESCRIPTION : String
  VISION_OUC_DESCRIPTION : String
  AO_NAME : String
  CHANNEL_TYPE_DESCRIPTION : String
  CUSTOMER_ID : String
  CUSTOMER_NAME : String
  CONTRACT_ID : String
  BUSINESS_DAY : ℤ
  MTD : ℤ
  deriving DecidableEq, Repr

def socKey (r : RaRow) : List String :=
  [r.BUSINESS_LINE_DESCRIPTION, r.SBU_DESCRIPTION, r.VISION_OUC_DESCRIPTION,
   r.AO_NAME, r.CHANNEL_TYPE_DESCRIPTION, r.CUSTOMER_ID, r.CUSTOMER_NAME,
   r.CONTRACT_ID]

/-- `df.groupby(soc_group_cols)[["BUSINESS_DAY", "MTD"]].sum()` of
`_top_soc` (keys in ascending order, pandas default `sort=True`). -/
def soc_groups (rows : List RaRow) : List SocGroup :=
  (groupKeys socKey rows).map fun k =>
    let rs := rows.filter fun r => socKey r == k
    { BUSINESS_LINE_DESCRIPTION := k.getD 0 ""
      SBU_DESCRIPTION := k.getD 1 ""
      VISION_OUC_DESCRIPTION := k.getD 2 ""
      AO_NAME := k.getD 3 ""
      CHANNEL_TYPE_DESCRIPTION := k.getD 4 ""
      CUSTOMER_ID := k.getD 5 ""
      CUSTOMER_NAME := k.getD 6 ""
      CONTRACT_ID := k.getD 7 ""
      BUSINESS_DAY := sumZ RaRow.BUSINESS_DAY rs
      MTD := sumZ RaRow.MTD rs }

/-- Stable descending comparison on the pair `(BUSINESS_DAY, MTD)`:
`sort_values(by=["BUSINESS_DAY", "MTD"], ascending=False)`, which pandas
performs with a stable lexicographic sort when `by` lists several columns. -/
def socPairDescR (y x : SocGroup) : Bool :=
  decide (x.BUSINESS_DAY < y.BUSINESS_DAY ∨
    (x.BUSINESS_DAY = y.BUSINESS_DAY ∧ x.MTD < y.MTD))

def TOP_N_DEFAULT : ℕ := 3

/-- `_top_soc` (source lines 31-50). -/
def _top_soc (rows : List RaRow) (top_n : ℕ) : List SocGroup :=
  (isortBy socPairDescR (soc_groups rows)).take top_n

/-- The per-direction preprocessing of
`get_overcharge_and_undercharge_aggregations` (source lines 78-87): keep
local-currency rows, take absolute values of both measures. -/
def lcy_abs_rows (rows : List RaRow) : List RaRow :=
  (rows.filter fun r => r.CCY_TYPE == "LCY").map fun r =>
    { r with BUSINESS_DAY := |r.BUSINESS_DAY|, MTD := |r.MTD| }

def overcharge_rows (rows : List RaRow) : List RaRow :=
  (lcy_abs_rows rows).filter fun r => r.BAL_TYPE == 208

def undercharge_rows (rows : List RaRow) : List RaRow :=
  (lcy_abs_rows rows).filter fun r => r.BAL_TYPE == 207

/-- The ranked top-N list of the overcharge direction (source line 102). -/
def overcharge_top_soc (rows : List RaRow) : List SocGroup :=
  _top_soc (overcharge_rows rows) TOP_N_DEFAULT

/-- The ranked top-N list of the undercharge direction. -/
def undercharge_top_soc (rows : List RaRow) : List SocGroup :=
  _top_soc (undercharge_rows rows) TOP_N_DEFAULT

/-- A template revenue-assurance row (local currency, overcharge). -/
def raRow0 : RaRow :=
  { BUSINESS_LINE_DESCRIPTION := "Corporate", SBU_DESCRIPTION := "SBU1",
    VISION_OUC_DESCRIPTION := "Branch1", AO_NAME := "AO1",
    CHANNEL_TYPE_DESCRIPTION := "Branch", CUSTOMER_ID := "C1",
    CUSTOMER_NAME := "Cust", CONTRACT_ID := "K1", CCY_TYPE := "LCY",
    BAL_TYPE := 208, BUSINESS_DAY := 0, MTD := 0 }

/-- Two tied overcharge groups with equal (current, month-to-date); the
first-seen one is `"Z"`. -/
def rowsC9tie : List RaRow :=
  [{ raRow0 with CUSTOMER_ID := "Z", BUSINESS_DAY := 100, MTD := 10 },
   { raRow0 with CUSTOMER_ID := "A", BUSINESS_DAY := 100, MTD := 10 }]

/-- Four overcharge groups (one negative current amount exercising the
absolute value), one foreign-currency row and one undercharge row. -/
def rowsC9 : List RaRow :=
  [{ raRow0 with CUSTOMER_ID := "C1", BUSINESS_DAY := -50, MTD := 5 },
   { raRow0 with CUSTOMER_ID := "C2", BUSINESS_DAY := 200, MTD := 1 },
   { raRow0 with CUSTOMER_ID := "C3", BUSINESS_DAY := 200, MTD := 9 },
   { raRow0 with CUSTOMER_ID := "C4", BUSINESS_DAY := 7, MTD := 1 },
   { raRow0 with CUSTOMER_ID := "C9", BUSINESS_DAY := 999, CCY_TYPE := "FCY" },
   { raRow0 with CUSTOMER_ID := "C8", BUSINESS_DAY := 888, BAL_TYPE := 207 }]

/-! ## Abbreviations naming intermediate values of `_format_dict` -/

/-- The relative scale left by the change-key loop (`rel_divisor`,
`rel_suffix` after source lines 276-290); the outer `none` models a raised
error, the inner `none` the Python `None, None` initial state. -/
def relScaleOf (d : Obj) (ct : String) : Option (Option (ℕ × String)) :=
  (chgFold ct d [] none).map Prod.snd

/-! ## Concrete inputs used by witnesses and counterexamples -/

/-- A template balance-sheet row. -/
def bsRow0 : BsRow :=
  { MGT_LINE_DESCRIPTION := "Total Assets", SOURCE_MGT_LINE := "S1",
    SOURCE_MGT_LINE_DESC := "Loans", MRL_LINE := "M1", MRL_DESCRIPTION := "Retail",
    CUSTOMER_ID := "C1", CUSTOMER_NAME := "Cust1", ACCOUNT_OFFICER := "AO1",
    AO_NAME := "Officer1", BUSINESS_DAY := 0, PREVIOUS_DAY := 0, MTD := 0 }

/-- Two rows of one group whose prior amounts cancel to zero. -/
def rowsC1w : List BsRow :=
  [{ bsRow0 with BUSINESS_DAY := 10, PREVIOUS_DAY := 5, MTD := 3 },
   { bsRow0 with BUSINESS_DAY := -10, PREVIOUS_DAY := -5, MTD := 4 }]

/-- The (unique) top-level record of `rowsC1w`. -/
def gC1w : TopGroup :=
  { MGT_LINE_DESCRIPTION := "Total Assets", BUSINESS_DAY := 0, PREVIOUS_DAY := 0,
    TL_MTD := 7, TL_CHANGE := 0, TL_PCT_CHANGE := none }

/-- One customer per row, customer changes +500, +300, -200, -900, -50
(prior 0 so that change = current). -/
def rowsC2 : List BsRow :=
  [{ bsRow0 with CUSTOMER_ID := "C1", CUSTOMER_NAME := "C1", BUSINESS_DAY := 500 },
   { bsRow0 with CUSTOMER_ID := "C2", CUSTOMER_NAME := "C2", BUSINESS_DAY := 300 },
   { bsRow0 with CUSTOMER_ID := "C3", CUSTOMER_NAME := "C3", BUSINESS_DAY := -200 },
   { bsRow0 with CUSTOMER_ID := "C4", CUSTOMER_NAME := "C4", BUSINESS_DAY := -900 },
   { bsRow0 with CUSTOMER_ID := "C5", CUSTOMER_NAME := "C5", BUSINESS_DAY := -50 }]

/-- Two customers with equal tied change +100; the first-seen one is `"Z"`,
but the grouped table lists `"A"` first (ascending key order). -/
def rowsC2tie : List BsRow :=
  [{ bsRow0 with CUSTOMER_ID := "Z", CUSTOMER_NAME := "Z", BUSINESS_DAY := 100 },
   { bsRow0 with CUSTOMER_ID := "A", CUSTOMER_NAME := "A", BUSINESS_DAY := 100 }]

/-- Two rows of one top category with different source lines; the
`"Deposits"` line gets excluded. -/
def rowC7a : BsRow :=
  { bsRow0 with
    SOURCE_MGT_LINE := "S1"
    SOURCE_MGT_LINE_DESC := "Deposits"
    BUSINESS_DAY := 10
    PREVIOUS_DAY := 4
    MTD := 1 }

def rowC7b : BsRow :=
  { bsRow0 with
    SOURCE_MGT_LINE := "S2"
    SOURCE_MGT_LINE_DESC := "Loans"
    BUSINESS_DAY := 5
    PREVIOUS_DAY := 2
    MTD := 1 }

def rowsC7 : List BsRow := [rowC7a, rowC7b]

/-- The unique top-level record of `rowsC7`: it sums both rows, the
excluded one included. -/
def gC7top : TopGroup :=
  { MGT_LINE_DESCRIPTION := "Total Assets", BUSINESS_DAY := 15, PREVIOUS_DAY := 6,
    TL_MTD := 2, TL_CHANGE := 9, TL_PCT_CHANGE := some (Rat.divInt 900 6) }

/-- One row per sub-line of one income-category source, month-to-date
values 120, -50, 300, 0, 80. -/
def rowsC3 : List BsRow :=
  [{ bsRow0 with MGT_LINE_DESCRIPTION := "Total Income", MRL_LINE := "M1", MTD := 120 },
   { bsRow0 with MGT_LINE_DESCRIPTION := "Total Income", MRL_LINE := "M2", MTD := -50 },
   { bsRow0 with MGT_LINE_DESCRIPTION := "Total Income", MRL_LINE := "M3", MTD := 300 },
   { bsRow0 with MGT_LINE_DESCRIPTION := "Total Income", MRL_LINE := "M4", MTD := 0 },
   { bsRow0 with MGT_LINE_DESCRIPTION := "Total Income", MRL_LINE := "M5", MTD := 80 }]

/-- Sub-lines of one income-category source all with non-positive
month-to-date. -/
def rowsC3neg : List BsRow :=
  [{ bsRow0 with MGT_LINE_DESCRIPTION := "Total Income", MRL_LINE := "M1", MTD := -5 },
   { bsRow0 with MGT_LINE_DESCRIPTION := "Total Income", MRL_LINE := "M2", MTD := 0 }]

/-- Minimal Level-0 nodes for the top-level ordering example. -/
def objTA : Obj := [("MGT_LINE_DESCRIPTION", Val.vstr "Total Assets")]

def objTL : Obj := [("MGT_LINE_DESCRIPTION", Val.vstr "Total Liability")]

def objTI : Obj := [("MGT_LINE_DESCRIPTION", Val.vstr "Total Income")]

def objTE : Obj := [("MGT_LINE_DESCRIPTION", Val.vstr "Total Expense")]

def objOtherX : Obj := [("MGT_LINE_DESCRIPTION", Val.vstr "OtherX")]

/-- A Level-2b (sub-line) node as `_format_dict` receives it: amount
fields, the sub-line month-to-date `MRL_MTD`, and its change fields. -/
def dC8mrl : Obj :=
  [("MRL_LINE", Val.vstr "M1"), ("MRL_DESCRIPTION", Val.vstr "Fees"),
   ("BUSINESS_DAY", Val.vnum 7000), ("PREVIOUS_DAY", Val.vnum 5000),
   ("MRL_MTD", Val.vnum 5000), ("MRL_CHANGE", Val.vnum 2000),
   ("MRL_PCT_CHANGE", Val.vnum 40)]

/-- A Level-0 node with a nonzero change. -/
def dC8w : Obj :=
  [("MGT_LINE_DESCRIPTION", Val.vstr "Total Assets"),
   ("BUSINESS_DAY", Val.vnum 1500000), ("PREVIOUS_DAY", Val.vnum 1400000),
   ("TL_MTD", Val.vnum 99), ("TL_CHANGE", Val.vnum 100000),
   ("TL_PCT_CHANGE", Val.vnum 7)]

/-- `_format_dict dC8w "USD"`: the relative scale of the +100,000 change is
(1e3, "K"), shared by the presentation copies; each `_FIX` copy uses its own
fixed scale with 2 decimals. -/
def outC8w : Obj :=
  [("Increase_Amount", Val.vstr "$100K"), ("Increase_Percentage", Val.vstr "7.00%"),
   ("BUSINESS_DAY", Val.vstr "$1,500K"), ("BUSINESS_DAY_FIX", Val.vstr "$1.50M"),
   ("PREVIOUS_DAY", Val.vstr "$1,400K"), ("PREVIOUS_DAY_FIX", Val.vstr "$1.40M"),
   ("TL_MTD", Val.vstr "$0K"), ("TL_MTD_FIX", Val.vstr "$99.00"),
   ("MGT_LINE_DESCRIPTION", Val.vstr "Total Assets")]

/-- A node whose change and percentage-change are both the null sentinel. -/
def dC10w : Obj :=
  [("TL_CHANGE", Val.vnull), ("TL_PCT_CHANGE", Val.vnull),
   ("BUSINESS_DAY", Val.vnum 1500), ("MGT_LINE_DESCRIPTION", Val.vstr "Total Assets")]

/-- `_format_dict dC10w "USD"`: no relative scale, so the amount is
`"N/A"`; the null change keys are dropped with no replacement. -/
def outC10w : Obj :=
  [("BUSINESS_DAY", Val.vstr "N/A"), ("BUSINESS_DAY_FIX", Val.vstr "$1.50K"),
   ("MGT_LINE_DESCRIPTION", Val.vstr "Total Assets")]

/-! ## Theorems: generic facts about the stable sort and selection -/

section SortSelectFacts

variable {G : Type} (r : G → G → Bool)

theorem isortBy_nil : isortBy r [] = [] := rfl

theorem isortBy_cons (x : G) (l : List G) :
    isortBy r (x :: l) = insBy r x (isortBy r l) := rfl

theorem insBy_cons_eq (x y : G) (ys : List G) :
    insBy r x (y :: ys) = if r y x then y :: insBy r x ys else x :: y :: ys := rfl

theorem selBy_cons_eq (x : G) (xs : List G) :
    selBy r (x :: xs) =
      match selBy r xs with
      | none => some (x, [])
      | some (m, rest) => if r m x then some (m, x :: rest) else some (x, xs) := rfl

theorem mem_insBy (a x : G) (l : List G) : a ∈ insBy r x l ↔ a = x ∨ a ∈ l := by
  induction l with
  | nil => simp [insBy]
  | cons y ys ih =>
    rw [insBy_cons_eq]
    cases h : r y x <;>
      simp only [if_true, Bool.false_eq_true, if_false, List.mem_cons, ih] <;>
      tauto

theorem mem_isortBy (a : G) (l : List G) : a ∈ isortBy r l ↔ a ∈ l := by
  induction l with
  | nil => simp [isortBy]
  | cons x xs ih =>
    rw [isortBy_cons, mem_insBy]
    simp [ih]

theorem length_insBy (x : G) (l : List G) :
    (insBy r x l).length = l.length + 1 := by
  induction l with
  | nil => rfl
  | cons y ys ih =>
    rw [insBy_cons_eq]
    cases h : r y x with
    | true => simp [ih]
    | false => simp

theorem length_isortBy (l : List G) : (isortBy r l).length = l.length := by
  induction l with
  | nil => rfl
  | cons x xs ih =>
    rw [isortBy_cons, length_insBy, ih]
    simp

theorem selBy_eq_none_iff (l : List G) : selBy r l = none ↔ l = [] := by
  cases l with
  | nil => simp [selBy]
  | cons g gs =>
    rw [selBy_cons_eq]
    cases selBy r gs with
    | none => simp
    | some p =>
      obtain ⟨m, rest⟩ := p
      show (if r m g = true then some (m, g :: rest) else some (g, gs)) = none ↔ g :: gs = []
      by_cases h : r m g = true
      · rw [if_pos h]
        simp
      · rw [if_neg h]
        simp

theorem isortBy_eq_selBy (l : List G) :
    isortBy r l =
      match selBy r l with
      | none => []
      | some (m, rest) => m :: isortBy r rest := by
  induction l with
  | nil => rfl
  | cons x xs ih =>
    cases hsel : selBy r xs with
    | none =>
      have hxs : xs = [] := (selBy_eq_none_iff r xs).mp hsel
      subst hxs
      simp [isortBy, insBy, selBy]
    | some p =>
      obtain ⟨m, rest⟩ := p
      rw [isortBy_cons, ih, hsel]
      cases h : r m x with
      | true =>
        have hx : selBy r (x :: xs) = some (m, x :: rest) := by
          rw [selBy_cons_eq, hsel]
          simp [h]
        rw [hx, insBy_cons_eq, h]
        simp only [if_true]
        rfl
      | false =>
        have hx : selBy r (x :: xs) = some (x, xs) := by
          rw [selBy_cons_eq, hsel]
          simp [h]
        rw [hx, insBy_cons_eq, h]
        simp only [Bool.false_eq_true, if_false]
        rw [ih, hsel]

theorem take_isortBy (n : ℕ) (l : List G) :
    (isortBy r l).take n = selTake r n l := by
  induction n generalizing l with
  | zero => simp [selTake]
  | succ n ih =>
    rw [isortBy_eq_selBy]
    cases hsel : selBy r l with
    | none => simp [selTake, hsel]
    | some p =>
      obtain ⟨m, rest⟩ := p
      simp only [selTake, hsel, List.take_succ_cons]
      rw [ih]

theorem pairwise_insBy
    (hasym : ∀ a b, r a b = true → r b a = false)
    (hnt : ∀ a b c, r b a = false → r c b = false → r c a = false)
    (x : G) (l : List G)
    (hl : l.Pairwise (fun a b => r b a = false)) :
    (insBy r x l).Pairwise (fun a b => r b a = false) := by
  induction l with
  | nil => simp [insBy]
  | cons y ys ih =>
    rw [List.pairwise_cons] at hl
    obtain ⟨hy, hys⟩ := hl
    rw [insBy_cons_eq]
    cases h : r y x with
    | true =>
      simp only [if_true, List.pairwise_cons]
      constructor
      · intro z hz
        rw [mem_insBy] at hz
        rcases hz with rfl | hz
        · exact hasym y z h
        · exact hy z hz
      · exact ih hys
    | false =>
      simp only [Bool.false_eq_true, if_false, List.pairwise_cons, List.mem_cons]
      refine ⟨?_, ?_, hys⟩
      · intro z hz
        rcases hz with rfl | hz
        · exact h
        · exact hnt x y z h (hy z hz)
      · exact hy

theorem pairwise_isortBy
    (hasym : ∀ a b, r a b = true → r b a = false)
    (hnt : ∀ a b c, r b a = false → r c b = false → r c a = false)
    (l : List G) :
    (isortBy r l).Pairwise (fun a b => r b a = false) := by
  induction l with
  | nil => simp [isortBy]
  | cons x xs ih =>
    rw [isortBy_cons]
    exact pairwise_insBy r hasym hnt x (isortBy r xs) ih


/-- Any member of the first `n` elements of the stable sort beats (in the
`r`-sense, non-strictly) any member of the input that was not selected. -/
theorem take_isortBy_dominates
    (hasym : ∀ a b, r a b = true → r b a = false)
    (hnt : ∀ a b c, r b a = false → r c b = false → r c a = false)
    (n : ℕ) (l : List G) (c g : G)
    (hc : c ∈ (isortBy r l).take n) (hg : g ∈ l)
    (hgn : g ∉ (isortBy r l).take n) :
    r g c = false := by
  have hp := pairwise_isortBy r hasym hnt l
  have hsplit := List.take_append_drop n (isortBy r l)
  rw [← hsplit, List.pairwise_append] at hp
  have hgmem : g ∈ isortBy r l := (mem_isortBy r g l).mpr hg
  rw [← hsplit, List.mem_append] at hgmem
  rcases hgmem with h | h
  · exact absurd h hgn
  · exact hp.2.2 c hc g h

theorem pairwise_take_isortBy
    (hasym : ∀ a b, r a b = true → r b a = false)
    (hnt : ∀ a b c, r b a = false → r c b = false → r c a = false)
    (n : ℕ) (l : List G) :
    ((isortBy r l).take n).Pairwise (fun a b => r b a = false) :=
  (pairwise_isortBy r hasym hnt l).sublist (List.take_sublist n (isortBy r l))

theorem mem_take_one {α : Type} {a b : α} {l : List α}
    (ha : a ∈ l.take 1) (hb : b ∈ l.take 1) : a = b := by
  cases l with
  | nil => simp at ha
  | cons x xs =>
    simp only [List.take_succ_cons, List.take_zero, List.mem_singleton] at ha hb
    rw [ha, hb]

theorem insBy_append_of_forall (x : G) (A B : List G)
    (hA : ∀ y ∈ A, r y x = true) :
    insBy r x (A ++ B) = A ++ insBy r x B := by
  induction A with
  | nil => rfl
  | cons a as ih =>
    rw [List.cons_append, insBy_cons_eq, if_pos (hA a (by simp)), List.cons_append,
      ih fun y hy => hA y (by simp [hy])]

theorem insBy_of_forall_not (x : G) (l : List G)
    (hl : ∀ y ∈ l, r y x = false) :
    insBy r x l = x :: l := by
  cases l with
  | nil => rfl
  | cons y ys =>
    rw [insBy_cons_eq, if_neg]
    simp [hl y (by simp)]

/-- A stable ascending sort by a `ℕ`-valued key bounded by 4 is the
concatenation of the key-level blocks in key order, each block keeping the
input order. -/
theorem isortBy_key_partition {H : Type} (key : H → ℕ) (hb : ∀ g, key g ≤ 4)
    (l : List H) :
    isortBy (fun y x => decide (key y < key x)) l =
      (l.filter fun g => key g == 0) ++ (l.filter fun g => key g == 1) ++
      (l.filter fun g => key g == 2) ++ (l.filter fun g => key g == 3) ++
      (l.filter fun g => key g == 4) := by
  induction l with
  | nil => rfl
  | cons x xs ih =>
    have hx4 : key x ≤ 4 := hb x
    have hmem : ∀ (j : ℕ) (y : H), y ∈ (xs.filter fun g => key g == j) → key y = j := by
      intro j y hy
      rw [List.mem_filter] at hy
      simpa using hy.2
    rw [show isortBy (fun y x => decide (key y < key x)) (x :: xs) =
      insBy (fun y x => decide (key y < key x)) x
        (isortBy (fun y x => decide (key y < key x)) xs) from rfl, ih]
    have hcase : key x = 0 ∨ key x = 1 ∨ key x = 2 ∨ key x = 3 ∨ key x = 4 := by omega
    rcases hcase with h | h | h | h | h <;>
      simp only [List.filter_cons, h, List.append_assoc] <;>
      norm_num
    · rw [insBy_of_forall_not]
      intro y hy
      simp only [List.mem_append] at hy
      have : key y = 0 ∨ key y = 1 ∨ key y = 2 ∨ key y = 3 ∨ key y = 4 := by
        rcases hy with hy | hy | hy | hy | hy
        · exact Or.inl (hmem 0 y hy)
        · exact Or.inr (Or.inl (hmem 1 y hy))
        · exact Or.inr (Or.inr (Or.inl (hmem 2 y hy)))
        · exact Or.inr (Or.inr (Or.inr (Or.inl (hmem 3 y hy))))
        · exact Or.inr (Or.inr (Or.inr (Or.inr (hmem 4 y hy))))
      simp only [decide_eq_false_iff_not]
      omega
    · rw [insBy_append_of_forall _ _ _ _ (fun y hy => by
          have := hmem 0 y hy
          simp only [decide_eq_true_eq]
          omega),
        insBy_of_forall_not]
      intro y hy
      simp only [List.mem_append] at hy
      have : key y = 1 ∨ key y = 2 ∨ key y = 3 ∨ key y = 4 := by
        rcases hy with hy | hy | hy | hy
        · exact Or.inl (hmem 1 y hy)
        · exact Or.inr (Or.inl (hmem 2 y hy))
        · exact Or.inr (Or.inr (Or.inl (hmem 3 y hy)))
        · exact Or.inr (Or.inr (Or.inr (hmem 4 y hy)))
      simp only [decide_eq_false_iff_not]
      omega
    · rw [insBy_append_of_forall _ _ _ _ (fun y hy => by
          have := hmem 0 y hy
          simp only [decide_eq_true_eq]
          omega),
        insBy_append_of_forall _ _ _ _ (fun y hy => by
          have := hmem 1 y hy
          simp only [decide_eq_true_eq]
          omega),
        insBy_of_forall_not]
      intro y hy
      simp only [List.mem_append] at hy
      have : key y = 2 ∨ key y = 3 ∨ key y = 4 := by
        rcases hy with hy | hy | hy
        · exact Or.inl (hmem 2 y hy)
        · exact Or.inr (Or.inl (hmem 3 y hy))
        · exact Or.inr (Or.inr (hmem 4 y hy))
      simp only [decide_eq_false_iff_not]
      omega
    · rw [insBy_append_of_forall _ _ _ _ (fun y hy => by
          have := hmem 0 y hy
          simp only [decide_eq_true_eq]
          omega),
        insBy_append_of_forall _ _ _ _ (fun y hy => by
          have := hmem 1 y hy
          simp only [decide_eq_true_eq]
          omega),
        insBy_append_of_forall _ _ _ _ (fun y hy => by
          have := hmem 2 y hy
          simp only [decide_eq_true_eq]
          omega),
        insBy_of_forall_not]
      intro y hy
      simp only [List.mem_append] at hy
      have : key y = 3 ∨ key y = 4 := by
        rcases hy with hy | hy
        · exact Or.inl (hmem 3 y hy)
        · exact Or.inr (hmem 4 y hy)
      simp only [decide_eq_false_iff_not]
      omega
    · rw [insBy_append_of_forall _ _ _ _ (fun y hy => by
          have := hmem 0 y hy
          simp only [decide_eq_true_eq]
          omega),
        insBy_append_of_forall _ _ _ _ (fun y hy => by
          have := hmem 1 y hy
          simp only [decide_eq_true_eq]
          omega),
        insBy_append_of_forall _ _ _ _ (fun y hy => by
          have := hmem 2 y hy
          simp only [decide_eq_true_eq]
          omega),
        insBy_append_of_forall _ _ _ _ (fun y hy => by
          have := hmem 3 y hy
          simp only [decide_eq_true_eq]
          omega),
        insBy_of_forall_not]
      intro y hy
      have : key y = 4 := hmem 4 y hy
      simp only [decide_eq_false_iff_not]
      omega

end SortSelectFacts

theorem get_scale_info_z_agrees (z : ℤ) :
    _get_scale_info (some ((z : ℚ))) =
      ((((_get_scale_info_z (some z)).1 : ℕ) : ℚ), (_get_scale_info_z (some z)).2) := by
  have habs : |((z : ℚ))| = ((z.natAbs : ℕ) : ℚ) := by
    rw [← Int.cast_abs, Int.abs_eq_natAbs, Int.cast_natCast]
  simp only [_get_scale_info, _get_scale_info_z]
  rw [habs]
  set a := z.natAbs with ha
  have h0 : ((a : ℚ) < 1000) ↔ a < 1000 := by exact_mod_cast Iff.rfl
  have h12 : (10 ≤ (a : ℚ) / 1000000000000) ↔ 10 * 10 ^ 12 ≤ a := by
    rw [le_div_iff₀ (by norm_num)]
    constructor
    · intro h
      exact_mod_cast h
    · intro h
      exact_mod_cast h
  have h9 : (10 ≤ (a : ℚ) / 1000000000) ↔ 10 * 10 ^ 9 ≤ a := by
    rw [le_div_iff₀ (by norm_num)]
    constructor
    · intro h
      exact_mod_cast h
    · intro h
      exact_mod_cast h
  have h6 : (10 ≤ (a : ℚ) / 1000000) ↔ 10 * 10 ^ 6 ≤ a := by
    rw [le_div_iff₀ (by norm_num)]
    constructor
    · intro h
      exact_mod_cast h
    · intro h
      exact_mod_cast h
  have h3 : (10 ≤ (a : ℚ) / 1000) ↔ 10 * 10 ^ 3 ≤ a := by
    rw [le_div_iff₀ (by norm_num)]
    constructor
    · intro h
      exact_mod_cast h
    · intro h
      exact_mod_cast h
  by_cases c0 : a < 1000
  · rw [if_pos (h0.mpr c0), if_pos c0]
    norm_num
  rw [if_neg (fun h => c0 (h0.mp h)), if_neg c0]
  by_cases c12 : 10 * 10 ^ 12 ≤ a
  · rw [if_pos (h12.mpr c12), if_pos c12]
    norm_num
  rw [if_neg (fun h => c12 (h12.mp h)), if_neg c12]
  by_cases c9 : 10 * 10 ^ 9 ≤ a
  · rw [if_pos (h9.mpr c9), if_pos c9]
    norm_num
  rw [if_neg (fun h => c9 (h9.mp h)), if_neg c9]
  by_cases c6 : 10 * 10 ^ 6 ≤ a
  · rw [if_pos (h6.mpr c6), if_pos c6]
    norm_num
  rw [if_neg (fun h => c6 (h6.mp h)), if_neg c6]
  by_cases c3 : 10 * 10 ^ 3 ≤ a
  · rw [if_pos (h3.mpr c3), if_pos c3]
    norm_num
  rw [if_neg (fun h => c3 (h3.mp h)), if_neg c3]
  norm_num

/-! ## Claim C1 -/

/-- C1: at every aggregation level of `build_bs_nested_hierarchy`
(top-category, source, sub-line, counterparty), a group whose prior-period
sum is exactly zero has the absent sentinel `none` as its percentage-change
field — and conversely a nonzero prior always yields the finite exact
rational `(current - prior) * 100 / prior`, never an infinity; the
computation is a total function, so no exception is raised. -/
theorem claim_C1_zero_prior_pct_is_none (rows : List BsRow) (excludeLines : List String) :
    (∀ g ∈ top_level_sums rows,
      (g.TL_PCT_CHANGE = none ↔ g.PREVIOUS_DAY = 0) ∧
      (g.PREVIOUS_DAY ≠ 0 →
        g.TL_PCT_CHANGE = some (Rat.divInt ((g.BUSINESS_DAY - g.PREVIOUS_DAY) * 100) g.PREVIOUS_DAY))) ∧
    (∀ g ∈ source_sums rows excludeLines,
      (g.SRC_PCT_CHANGE = none ↔ g.PREVIOUS_DAY = 0) ∧
      (g.PREVIOUS_DAY ≠ 0 →
        g.SRC_PCT_CHANGE = some (Rat.divInt ((g.BUSINESS_DAY - g.PREVIOUS_DAY) * 100) g.PREVIOUS_DAY))) ∧
    (∀ g ∈ mrl_sums rows excludeLines,
      (g.MRL_PCT_CHANGE = none ↔ g.PREVIOUS_DAY = 0) ∧
      (g.PREVIOUS_DAY ≠ 0 →
        g.MRL_PCT_CHANGE = some (Rat.divInt ((g.BUSINESS_DAY - g.PREVIOUS_DAY) * 100) g.PREVIOUS_DAY))) ∧
    (∀ g ∈ customer_sums rows excludeLines,
      (g.CUST_PCT_CHANGE = none ↔ g.PREVIOUS_DAY = 0) ∧
      (g.PREVIOUS_DAY ≠ 0 →
        g.CUST_PCT_CHANGE = some (Rat.divInt ((g.BUSINESS_DAY - g.PREVIOUS_DAY) * 100) g.PREVIOUS_DAY))) := by
  refine ⟨?_, ?_, ?_, ?_⟩
  · intro g hg
    obtain ⟨k, hk, rfl⟩ := List.mem_map.mp hg
    by_cases h : sumZ BsRow.PREVIOUS_DAY (rows.filter fun r => topKey r == k) = 0 <;>
      simp [pctChange, h]
  · intro g hg
    obtain ⟨k, hk, rfl⟩ := List.mem_map.mp hg
    by_cases h : sumZ BsRow.PREVIOUS_DAY
        ((filteredRows rows excludeLines).filter fun r => srcKey r == k) = 0 <;>
      simp [pctChange, h]
  · intro g hg
    obtain ⟨k, hk, rfl⟩ := List.mem_map.mp hg
    by_cases h : sumZ BsRow.PREVIOUS_DAY
        ((filteredRows rows excludeLines).filter fun r => mrlKey r == k) = 0 <;>
      simp [pctChange, h]
  · intro g hg
    obtain ⟨k, hk, rfl⟩ := List.mem_map.mp hg
    by_cases h : sumZ BsRow.PREVIOUS_DAY
        ((filteredRows rows excludeLines).filter fun r => custKey r == k) = 0 <;>
      simp [pctChange, h]

/-- Witness for C1: on `rowsC1w` (prior amounts 5 and -5 summing to zero)
the top-level record has the `none` sentinel. -/
theorem claim_C1_zero_prior_pct_is_none_witness :
    gC1w.TL_PCT_CHANGE = none := by
  have h := ((claim_C1_zero_prior_pct_is_none rowsC1w []).1 gC1w (by decide)).1
  exact h.mpr (by decide)

/-! ## Claim C2 (amended) and its counterexample -/

theorem custChangeDescR_asym (a b : CustGroup) :
    custChangeDescR a b = true → custChangeDescR b a = false := by
  intro h
  simp only [custChangeDescR, decide_eq_true_eq] at h
  simp only [custChangeDescR, decide_eq_false_iff_not]
  omega

theorem custChangeDescR_negtrans (a b c : CustGroup) :
    custChangeDescR b a = false → custChangeDescR c b = false →
    custChangeDescR c a = false := by
  intro h1 h2
  simp only [custChangeDescR, decide_eq_false_iff_not] at h1 h2 ⊢
  omega

theorem custChangeAscR_asym (a b : CustGroup) :
    custChangeAscR a b = true → custChangeAscR b a = false := by
  intro h
  simp only [custChangeAscR, decide_eq_true_eq] at h
  simp only [custChangeAscR, decide_eq_false_iff_not]
  omega

theorem custChangeAscR_negtrans (a b c : CustGroup) :
    custChangeAscR b a = false → custChangeAscR c b = false →
    custChangeAscR c a = false := by
  intro h1 h2
  simp only [custChangeAscR, decide_eq_false_iff_not] at h1 h2 ⊢
  omega

/-- C2 as amended: for asset/liability categories, each counterparty group
goes to POS when its change is `>= 0`, to NEG when `< 0`; POS keeps exactly
the single highest-change entry, NEG the two lowest-change entries ordered
most negative first; ties are broken by the grouped table's record order —
ascending lexicographic key order, NOT first-seen input order (the grouping
step sorts groups by key).  The selection equals the scan that repeatedly
picks the earliest-listed extremal group (`selTake`), and the concrete
change set +500, +300, -200, -900, -50 yields POS = [+500] and
NEG = [-900, -200]. -/
theorem claim_C2_pos_neg_customer_selection (rows : List BsRow)
    (excludeLines : List String) (mgt src : String)
    (hmgt : mgt = "Total Assets" ∨ mgt = "Total Liability") :
    (positive_customers rows excludeLines mgt src =
      selTake custChangeDescR 1 (pos_bucket rows excludeLines mgt src)) ∧
    (negative_customers rows excludeLines mgt src =
      selTake custChangeAscR 2 (neg_bucket rows excludeLines mgt src)) ∧
    (∀ c ∈ positive_customers rows excludeLines mgt src,
      0 ≤ c.CUST_CHANGE ∧ c ∈ customer_sums rows excludeLines) ∧
    (∀ c ∈ negative_customers rows excludeLines mgt src,
      c.CUST_CHANGE < 0 ∧ c ∈ customer_sums rows excludeLines) ∧
    (positive_customers rows excludeLines mgt src).length =
      min 1 (pos_bucket rows excludeLines mgt src).length ∧
    (negative_customers rows excludeLines mgt src).length =
      min 2 (neg_bucket rows excludeLines mgt src).length ∧
    (∀ c ∈ positive_customers rows excludeLines mgt src,
      ∀ g ∈ pos_bucket rows excludeLines mgt src, g.CUST_CHANGE ≤ c.CUST_CHANGE) ∧
    (∀ c ∈ negative_customers rows excludeLines mgt src,
      ∀ g ∈ neg_bucket rows excludeLines mgt src,
        g ∉ negative_customers rows excludeLines mgt src →
        c.CUST_CHANGE ≤ g.CUST_CHANGE) ∧
    (negative_customers rows excludeLines mgt src).Pairwise
      (fun a b => a.CUST_CHANGE ≤ b.CUST_CHANGE) ∧
    (positive_customers rowsC2 [] "Total Assets" "S1").map (·.CUST_CHANGE) = [500] ∧
    (negative_customers rowsC2 [] "Total Assets" "S1").map (·.CUST_CHANGE) =
      [-900, -200] := by
  refine ⟨take_isortBy _ 1 _, take_isortBy _ 2 _, ?_, ?_, ?_, ?_, ?_, ?_, ?_,
    by decide, by decide⟩
  · intro c hc
    have hcb : c ∈ pos_bucket rows excludeLines mgt src :=
      (mem_isortBy _ c _).mp (List.take_subset 1 _ hc)
    rw [pos_bucket, List.mem_filter] at hcb
    obtain ⟨hmem, hpred⟩ := hcb
    simp only [Bool.and_eq_true, decide_eq_true_eq] at hpred
    exact ⟨hpred.2, hmem⟩
  · intro c hc
    have hcb : c ∈ neg_bucket rows excludeLines mgt src :=
      (mem_isortBy _ c _).mp (List.take_subset 2 _ hc)
    rw [neg_bucket, List.mem_filter] at hcb
    obtain ⟨hmem, hpred⟩ := hcb
    simp only [Bool.and_eq_true, decide_eq_true_eq] at hpred
    exact ⟨hpred.2, hmem⟩
  · rw [positive_customers, List.length_take, length_isortBy]
  · rw [negative_customers, List.length_take, length_isortBy]
  · intro c hc g hg
    by_cases hgsel : g ∈ positive_customers rows excludeLines mgt src
    · rw [mem_take_one hc hgsel]
    · have hdom := take_isortBy_dominates custChangeDescR custChangeDescR_asym
        custChangeDescR_negtrans 1 (pos_bucket rows excludeLines mgt src) c g hc hg hgsel
      simp only [custChangeDescR, decide_eq_false_iff_not] at hdom
      omega
  · intro c hc g hg hgsel
    have hdom := take_isortBy_dominates custChangeAscR custChangeAscR_asym
      custChangeAscR_negtrans 2 (neg_bucket rows excludeLines mgt src) c g hc hg hgsel
    simp only [custChangeAscR, decide_eq_false_iff_not] at hdom
    omega
  · have hp := pairwise_take_isortBy custChangeAscR custChangeAscR_asym
      custChangeAscR_negtrans 2 (neg_bucket rows excludeLines mgt src)
    refine hp.imp ?_
    intro a b hab
    simp only [custChangeAscR, decide_eq_false_iff_not] at hab
    omega

/-- Counterexample to C2 as stated: with two tied customers whose change is
+100 each, the first-seen one is `"Z"`, yet the kept POS entry is `"A"` —
the grouping step lists groups in ascending key order, so ties are NOT
broken by first-seen input order. -/
theorem claim_C2_counterexample_first_seen_tie :
    (rowsC2tie.map (·.CUSTOMER_ID) = ["Z", "A"]) ∧
    ((customer_sums rowsC2tie []).map (·.CUST_CHANGE) = [100, 100]) ∧
    ((positive_customers rowsC2tie [] "Total Assets" "S1").map (·.CUSTOMER_ID) = ["A"]) ∧
    ¬ ((positive_customers rowsC2tie [] "Total Assets" "S1").map (·.CUSTOMER_ID) = ["Z"]) := by
  refine ⟨by decide, by decide, by decide, by decide⟩

/-- Witness for C2: the amended theorem applied at the concrete change set
+500, +300, -200, -900, -50. -/
theorem claim_C2_pos_neg_customer_selection_witness :
    (positive_customers rowsC2 [] "Total Assets" "S1").map (·.CUST_CHANGE) = [500] ∧
    (negative_customers rowsC2 [] "Total Assets" "S1").map (·.CUST_CHANGE) = [-900, -200] :=
  ⟨(claim_C2_pos_neg_customer_selection rowsC2 [] "Total Assets" "S1"
      (Or.inl rfl)).2.2.2.2.2.2.2.2.2.1,
   (claim_C2_pos_neg_customer_selection rowsC2 [] "Total Assets" "S1"
      (Or.inl rfl)).2.2.2.2.2.2.2.2.2.2⟩

/-! ## Claim C3 -/

theorem mrlMtdDescR_asym (a b : SigMrl) :
    mrlMtdDescR a b = true → mrlMtdDescR b a = false := by
  intro h
  simp only [mrlMtdDescR, decide_eq_true_eq] at h
  simp only [mrlMtdDescR, decide_eq_false_iff_not]
  omega

theorem mrlMtdDescR_negtrans (a b c : SigMrl) :
    mrlMtdDescR b a = false → mrlMtdDescR c b = false → mrlMtdDescR c a = false := by
  intro h1 h2
  simp only [mrlMtdDescR, decide_eq_false_iff_not] at h1 h2 ⊢
  omega

/-- C3: for an income/expense category and a (category, source) key, the
attached significant sub-line list keeps only sub-line groups with strictly
positive month-to-date, at most the top 2 of them by month-to-date
descending (every unselected positive sub-line is bounded by every selected
one), and is the empty list — never an error — when no sub-line of the key
has positive month-to-date; for the month-to-date set
120, -50, 300, 0, 80 the list is [300, 120], and an all-non-positive set
yields []. -/
theorem claim_C3_significant_mrls_selection (rows : List BsRow)
    (excludeLines : List String) (mgt src : String)
    (hmgt : mgt = "Total Income" ∨ mgt = "Total Expense") :
    (significant_mrls rows excludeLines mgt src =
      selTake mrlMtdDescR 2 (significant_candidates rows excludeLines mgt src)) ∧
    (∀ m ∈ significant_mrls rows excludeLines mgt src, 0 < m.MRL_MTD) ∧
    (significant_mrls rows excludeLines mgt src).length =
      min 2 (significant_candidates rows excludeLines mgt src).length ∧
    (significant_mrls rows excludeLines mgt src).Pairwise
      (fun a b => b.MRL_MTD ≤ a.MRL_MTD) ∧
    (∀ m ∈ significant_mrls rows excludeLines mgt src,
      ∀ g ∈ significant_candidates rows excludeLines mgt src,
        g ∉ significant_mrls rows excludeLines mgt src →
        g.MRL_MTD ≤ m.MRL_MTD) ∧
    ((∀ g ∈ mrl_sums rows excludeLines, g.MGT_LINE_DESCRIPTION = mgt →
        g.SOURCE_MGT_LINE = src → g.MRL_MTD ≤ 0) →
      significant_mrls rows excludeLines mgt src = []) ∧
    (significant_mrls rowsC3 [] "Total Income" "S1").map (·.MRL_MTD) = [300, 120] ∧
    significant_mrls rowsC3neg [] "Total Income" "S1" = [] := by
  have hie : isIncomeExpense mgt = true := by
    rcases hmgt with h | h <;> simp [isIncomeExpense, h]
  refine ⟨?_, ?_, ?_, ?_, ?_, ?_, by decide, by decide⟩
  · rw [significant_mrls, if_pos hie]
    exact take_isortBy _ 2 _
  · intro m hm
    rw [significant_mrls, if_pos hie] at hm
    have hmc : m ∈ significant_candidates rows excludeLines mgt src :=
      (mem_isortBy _ m _).mp (List.take_subset 2 _ hm)
    rw [significant_candidates, List.mem_map] at hmc
    obtain ⟨g, hg, rfl⟩ := hmc
    rw [List.mem_filter] at hg
    obtain ⟨hmem, hpred⟩ := hg
    simp only [Bool.and_eq_true, beq_iff_eq, decide_eq_true_eq] at hpred
    exact hpred.2
  · rw [significant_mrls, if_pos hie, List.length_take, length_isortBy]
  · rw [significant_mrls, if_pos hie]
    have hp := pairwise_take_isortBy mrlMtdDescR mrlMtdDescR_asym
      mrlMtdDescR_negtrans 2 (significant_candidates rows excludeLines mgt src)
    refine hp.imp ?_
    intro a b hab
    simp only [mrlMtdDescR, decide_eq_false_iff_not] at hab
    omega
  · intro m hm g hg hgsel
    rw [significant_mrls, if_pos hie] at hm hgsel
    have hdom := take_isortBy_dominates mrlMtdDescR mrlMtdDescR_asym
      mrlMtdDescR_negtrans 2 (significant_candidates rows excludeLines mgt src)
      m g hm hg hgsel
    simp only [mrlMtdDescR, decide_eq_false_iff_not] at hdom
    omega
  · intro hall
    have hcand : significant_candidates rows excludeLines mgt src = [] := by
      rw [significant_candidates, List.map_eq_nil_iff, List.filter_eq_nil_iff]
      intro g hg hpred
      simp only [Bool.and_eq_true, beq_iff_eq, decide_eq_true_eq] at hpred
      have := hall g hg hpred.1.1 hpred.1.2
      omega
    rw [significant_mrls, if_pos hie, hcand]
    rfl

/-- Witness for C3: the theorem applied at the concrete month-to-date set
120, -50, 300, 0, 80 and at an all-non-positive set. -/
theorem claim_C3_significant_mrls_selection_witness :
    (significant_mrls rowsC3 [] "Total Income" "S1").map (·.MRL_MTD) = [300, 120] ∧
    significant_mrls rowsC3neg [] "Total Income" "S1" = [] :=
  ⟨(claim_C3_significant_mrls_selection rowsC3 [] "Total Income" "S1"
      (Or.inl rfl)).2.2.2.2.2.2.1,
   (claim_C3_significant_mrls_selection rowsC3neg [] "Total Income" "S1"
      (Or.inl rfl)).2.2.2.2.2.1 (by decide)⟩

/-! ## Claim C4 -/

theorem topPriority_le (d : Obj) : topPriority d ≤ 4 := by
  unfold topPriority
  rcases lookupV d "MGT_LINE_DESCRIPTION" with _ | v
  · simp
  · rcases v with z | s | _
    · simp
    · show (if (s == "Total Assets") = true then 0
        else if (s == "Total Liability") = true then 1
        else if (s == "Total Income") = true then 2
        else if (s == "Total Expense") = true then 3 else 4) ≤ 4
      split_ifs <;> omega
    · simp

/-- C4: the top-level reordering of `format_nested_amounts` sorts the
Level-0 nodes stably by the canonical priority (Total Assets 0, Total
Liability 1, Total Income 2, Total Expense 3, everything else behind them),
so the output is exactly the five priority blocks in order, each keeping the
input's relative order; in particular the input order
[OtherX, Total Expense, Total Assets, Total Income, Total Liability]
produces [Total Assets, Total Liability, Total Income, Total Expense,
OtherX]. -/
theorem claim_C4_top_level_canonical_order (l : List Obj) :
    (sortTopLevel l =
      (l.filter fun d => topPriority d == 0) ++ (l.filter fun d => topPriority d == 1) ++
      (l.filter fun d => topPriority d == 2) ++ (l.filter fun d => topPriority d == 3) ++
      (l.filter fun d => topPriority d == 4)) ∧
    topPriority objTA = 0 ∧ topPriority objTL = 1 ∧ topPriority objTI = 2 ∧
    topPriority objTE = 3 ∧ topPriority objOtherX = 4 ∧
    sortTopLevel [objOtherX, objTE, objTA, objTI, objTL] =
      [objTA, objTL, objTI, objTE, objOtherX] := by
  refine ⟨?_, by decide, by decide, by decide, by decide, by decide, by decide⟩
  exact isortBy_key_partition topPriority topPriority_le l

/-! ## Claim C7 -/

theorem filter_filter_comb {α : Type} (p q : α → Bool) (l : List α) :
    (l.filter p).filter q = l.filter fun a => p a && q a := by
  induction l with
  | nil => rfl
  | cons x xs ih => cases hp : p x <;> cases hq : q x <;> simp [List.filter_cons, hp, hq, ih]

/-- C7: the Level-0 sums of `build_bs_nested_hierarchy` range over ALL
input rows (the exclusion filter has not been applied yet), while the
Level-1/2a/2b sums are computed on the exclusion-filtered row set: an
excluded row is absent from that set, every deeper level equals the same
computation on the pre-filtered rows with an empty exclusion list, no
source group carries an excluded label, and a source group's sums range
exactly over the key-matching rows whose source label is not excluded.
Concretely, with an excluded `"Deposits"` row (10/4/1) and a kept
`"Loans"` row (5/2/1) of one category, the top level sums to 15/6/2 while
the source level holds only the Loans group with 5/2. -/
theorem claim_C7_exclusion_scope (rows : List BsRow) (excludeLines : List String) :
    (∀ g ∈ top_level_sums rows,
      g.BUSINESS_DAY = sumZ BsRow.BUSINESS_DAY
        (rows.filter fun r => topKey r == [g.MGT_LINE_DESCRIPTION]) ∧
      g.PREVIOUS_DAY = sumZ BsRow.PREVIOUS_DAY
        (rows.filter fun r => topKey r == [g.MGT_LINE_DESCRIPTION]) ∧
      g.TL_MTD = sumZ BsRow.MTD
        (rows.filter fun r => topKey r == [g.MGT_LINE_DESCRIPTION])) ∧
    (∀ r ∈ rows, excludeLines.contains r.SOURCE_MGT_LINE_DESC = true →
      r ∉ filteredRows rows excludeLines) ∧
    (source_sums rows excludeLines = source_sums (filteredRows rows excludeLines) [] ∧
     mrl_sums rows excludeLines = mrl_sums (filteredRows rows excludeLines) [] ∧
     customer_sums rows excludeLines = customer_sums (filteredRows rows excludeLines) []) ∧
    (∀ g ∈ source_sums rows excludeLines,
      excludeLines.contains g.SOURCE_MGT_LINE_DESC = false) ∧
    (∀ g ∈ source_sums rows excludeLines,
      g.BUSINESS_DAY = sumZ BsRow.BUSINESS_DAY
        (rows.filter fun r => !(excludeLines.contains r.SOURCE_MGT_LINE_DESC) &&
          srcKey r == [g.MGT_LINE_DESCRIPTION, g.SOURCE_MGT_LINE, g.SOURCE_MGT_LINE_DESC])) ∧
    (top_level_sums rowsC7).map
      (fun g => (g.MGT_LINE_DESCRIPTION, g.BUSINESS_DAY, g.PREVIOUS_DAY, g.TL_MTD)) =
      [("Total Assets", 15, 6, 2)] ∧
    (source_sums rowsC7 ["Deposits"]).map
      (fun g => (g.SOURCE_MGT_LINE_DESC, g.BUSINESS_DAY, g.PREVIOUS_DAY)) =
      [("Loans", 5, 2)] ∧
    (customer_sums rowsC7 ["Deposits"]).map (·.BUSINESS_DAY) = [5] := by
  have hff : filteredRows (filteredRows rows excludeLines) [] =
      filteredRows rows excludeLines := by
    simp [filteredRows]
  refine ⟨?_, ?_, ⟨?_, ?_, ?_⟩, ?_, ?_, by decide, by decide, by decide⟩
  · intro g hg
    obtain ⟨k, hk, rfl⟩ := List.mem_map.mp hg
    have hk' : k ∈ rows.map topKey := List.mem_dedup.mp ((mem_isortBy _ _ _).mp hk)
    obtain ⟨r0, _hr0, rfl⟩ := List.mem_map.mp hk'
    exact ⟨rfl, rfl, rfl⟩
  · intro r _hr hcont hmem
    rw [filteredRows, List.mem_filter] at hmem
    rw [hcont] at hmem
    simp at hmem
  · unfold source_sums
    rw [hff]
  · unfold mrl_sums
    rw [hff]
  · unfold customer_sums
    rw [hff]
  · intro g hg
    obtain ⟨k, hk, rfl⟩ := List.mem_map.mp hg
    have hk' : k ∈ (filteredRows rows excludeLines).map srcKey :=
      List.mem_dedup.mp ((mem_isortBy _ _ _).mp hk)
    obtain ⟨r0, hr0, rfl⟩ := List.mem_map.mp hk'
    rw [filteredRows, List.mem_filter] at hr0
    have h2 := hr0.2
    simp only [Bool.not_eq_true'] at h2
    exact h2
  · intro g hg
    obtain ⟨k, hk, rfl⟩ := List.mem_map.mp hg
    have hk' : k ∈ (filteredRows rows excludeLines).map srcKey :=
      List.mem_dedup.mp ((mem_isortBy _ _ _).mp hk)
    obtain ⟨r0, _hr0, rfl⟩ := List.mem_map.mp hk'
    show sumZ BsRow.BUSINESS_DAY
        ((filteredRows rows excludeLines).filter fun r => srcKey r == srcKey r0) = _
    rw [filteredRows, filter_filter_comb]
    rfl

/-- Witness for C7: the first conjunct applied at `rowsC7` with exclusion
list `["Deposits"]` — the top-level record sums current over both rows,
the excluded one included. -/
theorem claim_C7_exclusion_scope_witness :
    gC7top.BUSINESS_DAY = sumZ BsRow.BUSINESS_DAY
      (rowsC7.filter fun r => topKey r == ["Total Assets"]) ∧
    gC7top.BUSINESS_DAY = 15 := by
  have h := ((claim_C7_exclusion_scope rowsC7 ["Deposits"]).1 gC7top (by decide)).1
  exact ⟨h, by decide⟩

/-! ## Claim C9 (amended) and its counterexample -/

theorem socPairDescR_asym (a b : SocGroup) :
    socPairDescR a b = true → socPairDescR b a = false := by
  intro h
  simp only [socPairDescR, decide_eq_true_eq] at h
  simp only [socPairDescR, decide_eq_false_iff_not]
  omega

theorem socPairDescR_negtrans (a b c : SocGroup) :
    socPairDescR b a = false → socPairDescR c b = false → socPairDescR c a = false := by
  intro h1 h2
  simp only [socPairDescR, decide_eq_false_iff_not] at h1 h2 ⊢
  omega

/-- C9 as amended: per leakage direction the aggregator returns the top-3
groups of the compound business-attribute key, ranked by current amount
descending then month-to-date descending; equal (current, MTD) pairs keep
the grouped table's record order — ascending lexicographic key order from
the key-sorted grouping step, NOT input row order.  The selection equals
the scan repeatedly picking the earliest-listed lexicographically largest
pair, every kept group weakly dominates every dropped one, and the output
is ordered pair-descending. -/
theorem claim_C9_top_soc_ranking (rows : List RaRow) :
    (overcharge_top_soc rows =
      selTake socPairDescR 3 (soc_groups (overcharge_rows rows))) ∧
    (undercharge_top_soc rows =
      selTake socPairDescR 3 (soc_groups (undercharge_rows rows))) ∧
    (overcharge_top_soc rows).length =
      min 3 (soc_groups (overcharge_rows rows)).length ∧
    (undercharge_top_soc rows).length =
      min 3 (soc_groups (undercharge_rows rows)).length ∧
    (overcharge_top_soc rows).Pairwise (fun a b =>
      b.BUSINESS_DAY < a.BUSINESS_DAY ∨
      (b.BUSINESS_DAY = a.BUSINESS_DAY ∧ b.MTD ≤ a.MTD)) ∧
    (undercharge_top_soc rows).Pairwise (fun a b =>
      b.BUSINESS_DAY < a.BUSINESS_DAY ∨
      (b.BUSINESS_DAY = a.BUSINESS_DAY ∧ b.MTD ≤ a.MTD)) ∧
    (∀ c ∈ overcharge_top_soc rows, ∀ g ∈ soc_groups (overcharge_rows rows),
      g ∉ overcharge_top_soc rows →
      g.BUSINESS_DAY < c.BUSINESS_DAY ∨
      (g.BUSINESS_DAY = c.BUSINESS_DAY ∧ g.MTD ≤ c.MTD)) ∧
    (∀ c ∈ undercharge_top_soc rows, ∀ g ∈ soc_groups (undercharge_rows rows),
      g ∉ undercharge_top_soc rows →
      g.BUSINESS_DAY < c.BUSINESS_DAY ∨
      (g.BUSINESS_DAY = c.BUSINESS_DAY ∧ g.MTD ≤ c.MTD)) := by
  refine ⟨take_isortBy _ 3 _, take_isortBy _ 3 _, ?_, ?_, ?_, ?_, ?_, ?_⟩
  · rw [overcharge_top_soc, _top_soc, List.length_take, length_isortBy, TOP_N_DEFAULT]
  · rw [undercharge_top_soc, _top_soc, List.length_take, length_isortBy, TOP_N_DEFAULT]
  · have hp := pairwise_take_isortBy socPairDescR socPairDescR_asym
      socPairDescR_negtrans 3 (soc_groups (overcharge_rows rows))
    refine hp.imp ?_
    intro a b hab
    simp only [socPairDescR, decide_eq_false_iff_not] at hab
    omega
  · have hp := pairwise_take_isortBy socPairDescR socPairDescR_asym
      socPairDescR_negtrans 3 (soc_groups (undercharge_rows rows))
    refine hp.imp ?_
    intro a b hab
    simp only [socPairDescR, decide_eq_false_iff_not] at hab
    omega
  · intro c hc g hg hgsel
    have hdom := take_isortBy_dominates socPairDescR socPairDescR_asym
      socPairDescR_negtrans 3 (soc_groups (overcharge_rows rows)) c g hc hg hgsel
    simp only [socPairDescR, decide_eq_false_iff_not] at hdom
    omega
  · intro c hc g hg hgsel
    have hdom := take_isortBy_dominates socPairDescR socPairDescR_asym
      socPairDescR_negtrans 3 (soc_groups (undercharge_rows rows)) c g hc hg hgsel
    simp only [socPairDescR, decide_eq_false_iff_not] at hdom
    omega

/-- Counterexample to C9 as stated: two tied groups with equal
(current, MTD); the first input row is customer `"Z"`, yet the ranked list
is `["A", "Z"]` — ties follow ascending group-key order, not input row
order. -/
theorem claim_C9_counterexample_input_order_tie :
    (rowsC9tie.map (·.CUSTOMER_ID) = ["Z", "A"]) ∧
    ((soc_groups (overcharge_rows rowsC9tie)).map
      (fun g => (g.BUSINESS_DAY, g.MTD)) = [(100, 10), (100, 10)]) ∧
    ((overcharge_top_soc rowsC9tie).map (·.CUSTOMER_ID) = ["A", "Z"]) ∧
    ¬ ((overcharge_top_soc rowsC9tie).map (·.CUSTOMER_ID) = ["Z", "A"]) := by
  refine ⟨by decide, by decide, by decide, by decide⟩

/-- Witness for C9: the amended theorem applied at `rowsC9`, together with
the concrete ranked result (pair-descending, absolute values, top 3 of 4
groups, local-currency overcharge rows only). -/
theorem claim_C9_top_soc_ranking_witness :
    (overcharge_top_soc rowsC9).Pairwise (fun a b =>
      b.BUSINESS_DAY < a.BUSINESS_DAY ∨
      (b.BUSINESS_DAY = a.BUSINESS_DAY ∧ b.MTD ≤ a.MTD)) ∧
    (overcharge_top_soc rowsC9).map (·.CUSTOMER_ID) = ["C3", "C2", "C1"] :=
  ⟨(claim_C9_top_soc_ranking rowsC9).2.2.2.2.1, by decide⟩

/-! ## Claim C5 -/

/-- C5: for every numeric value `v`, `_get_scale_info` returns divisor 1
with the empty suffix when `|v| < 1e3`, otherwise the largest divisor
`d` among 1e12, 1e9, 1e6, 1e3 with `|v| / d >= 10` together with its suffix
(spelled out as the equivalent intervals of `|v|`), and divisor 1 with the
empty suffix when none qualifies (`|v| < 1e4`); in particular 12,345,000
gets divisor 1e6 with suffix `"M"` and 8,000 gets divisor 1 with no
suffix. -/
theorem claim_C5_relative_scale_policy (v : ℚ) :
    (|v| < 1000 → _get_scale_info (some v) = (1, "")) ∧
    (1000 ≤ |v| → |v| < 10000 → _get_scale_info (some v) = (1, "")) ∧
    (10000 ≤ |v| → |v| < 10000000 → _get_scale_info (some v) = (1000, "K")) ∧
    (10000000 ≤ |v| → |v| < 10000000000 → _get_scale_info (some v) = (1000000, "M")) ∧
    (10000000000 ≤ |v| → |v| < 10000000000000 → _get_scale_info (some v) = (1000000000, "B")) ∧
    (10000000000000 ≤ |v| → _get_scale_info (some v) = (1000000000000, "T")) ∧
    _get_scale_info (some 12345000) = (1000000, "M") ∧
    _get_scale_info (some 8000) = (1, "") := by
  have h12 : (10 ≤ |v| / 1000000000000) ↔ (10000000000000 : ℚ) ≤ |v| := by
    rw [le_div_iff₀ (by norm_num)]
    norm_num
  have h9 : (10 ≤ |v| / 1000000000) ↔ (10000000000 : ℚ) ≤ |v| := by
    rw [le_div_iff₀ (by norm_num)]
    norm_num
  have h6 : (10 ≤ |v| / 1000000) ↔ (10000000 : ℚ) ≤ |v| := by
    rw [le_div_iff₀ (by norm_num)]
    norm_num
  have h3 : (10 ≤ |v| / 1000) ↔ (10000 : ℚ) ≤ |v| := by
    rw [le_div_iff₀ (by norm_num)]
    norm_num
  refine ⟨?_, ?_, ?_, ?_, ?_, ?_, by norm_num [_get_scale_info], by norm_num [_get_scale_info]⟩
  · intro h1
    simp only [_get_scale_info]
    rw [if_pos h1]
  · intro h1 h2
    simp only [_get_scale_info]
    rw [if_neg (by linarith), if_neg (by rw [h12]; intro hc; linarith),
      if_neg (by rw [h9]; intro hc; linarith), if_neg (by rw [h6]; intro hc; linarith),
      if_neg (by rw [h3]; intro hc; linarith)]
  · intro h1 h2
    simp only [_get_scale_info]
    rw [if_neg (by linarith), if_neg (by rw [h12]; intro hc; linarith),
      if_neg (by rw [h9]; intro hc; linarith), if_neg (by rw [h6]; intro hc; linarith),
      if_pos (h3.mpr h1)]
  · intro h1 h2
    simp only [_get_scale_info]
    rw [if_neg (by linarith), if_neg (by rw [h12]; intro hc; linarith),
      if_neg (by rw [h9]; intro hc; linarith), if_pos (h6.mpr h1)]
  · intro h1 h2
    simp only [_get_scale_info]
    rw [if_neg (by linarith), if_neg (by rw [h12]; intro hc; linarith),
      if_pos (h9.mpr h1)]
  · intro h1
    simp only [_get_scale_info]
    rw [if_neg (by linarith), if_pos (h12.mpr h1)]

/-- Witness for C5: the 8,000 case through the second conjunct. -/
theorem claim_C5_relative_scale_policy_witness :
    _get_scale_info (some 8000) = (1, "") :=
  (claim_C5_relative_scale_policy 8000).2.1 (by norm_num) (by norm_num)

/-! ## Claim C6 -/

/-- C6: evaluating `format_scaled_amount` at value -1234 and currency
`"INR"`.  The source formats the signed `value / divisor` (giving
`"-1.23"`) and additionally prepends `sign = "-"` for negative values
(source lines 224-227), so the result carries a doubled minus sign
`"₹--1.23K"`, contradicting the claimed `"₹-1.23K"`, which is also the
function's own docstring example (source line 201). -/
theorem claim_C6_format_scaled_amount_negative :
    format_scaled_amount (some (-1234)) "INR" = "₹--1.23K" ∧
    format_scaled_amount (some (-1234)) "INR" ≠ "₹-1.23K" := by
  constructor
  · decide
  · decide

/-! ## Association-list lemmas for the dict model -/

theorem strFix_inj {s t : String} (h : s ++ "_FIX" = t ++ "_FIX") : s = t := by
  have hd : s.data ++ "_FIX".data = t.data ++ "_FIX".data := by
    rw [← String.data_append, ← String.data_append, h]
  have hdt : s.data = t.data := List.append_cancel_right hd
  cases s
  cases t
  exact congrArg String.mk (by simpa using hdt)

theorem lookupV_eq_none_iff (d : Obj) (k : String) :
    lookupV d k = none ↔ hasKey d k = false := by
  induction d with
  | nil => simp [lookupV, hasKey]
  | cons p rest ih =>
    obtain ⟨k0, v0⟩ := p
    by_cases h : k0 = k
    · subst h
      simp [lookupV, hasKey, List.find?]
    · have hb : (k0 == k) = false := by simp [h]
      simp only [lookupV, hasKey, List.find?, List.any_cons, hb, Bool.false_or]
      exact ih

theorem hasKey_append (a b : Obj) (k : String) :
    hasKey (a ++ b) k = (hasKey a k || hasKey b k) := by
  simp [hasKey, List.any_append]

theorem lookupV_append_left (a b : Obj) (k : String) (h : hasKey a k = true) :
    lookupV (a ++ b) k = lookupV a k := by
  induction a with
  | nil => simp [hasKey] at h
  | cons p rest ih =>
    obtain ⟨k0, v0⟩ := p
    by_cases hk : k0 = k
    · subst hk
      simp [lookupV, List.find?]
    · have hb : (k0 == k) = false := by simp [hk]
      simp only [hasKey, List.any_cons, hb, Bool.false_or] at h
      simp only [List.cons_append, lookupV, List.find?, hb]
      exact ih h

theorem lookupV_append_right (a b : Obj) (k : String) (h : hasKey a k = false) :
    lookupV (a ++ b) k = lookupV b k := by
  induction a with
  | nil => simp
  | cons p rest ih =>
    obtain ⟨k0, v0⟩ := p
    simp only [hasKey, List.any_cons, Bool.or_eq_false_iff] at h
    simp only [List.cons_append, lookupV, List.find?, h.1]
    exact ih (by simp [hasKey, h.2])

theorem hasKey_cons (k0 : String) (v0 : Val) (rest : Obj) (q : String) :
    hasKey ((k0, v0) :: rest) q = ((k0 == q) || hasKey rest q) := by
  simp [hasKey]

theorem hasKey_upsert (d : Obj) (k : String) (v : Val) (q : String) :
    hasKey (upsert d k v) q = ((q == k) || hasKey d q) := by
  induction d with
  | nil =>
    by_cases h : q = k
    · subst h
      simp [upsert, hasKey]
    · have h1 : (k == q) = false := by simp [Ne.symm h]
      have h2 : (q == k) = false := by simp [h]
      simp [upsert, hasKey, h1, h2]
  | cons p rest ih =>
    obtain ⟨k0, v0⟩ := p
    by_cases h : k0 = k
    · subst h
      rw [show upsert ((k0, v0) :: rest) k0 v = (k0, v) :: rest from by simp [upsert]]
      rw [hasKey_cons, hasKey_cons]
      by_cases hq : k0 = q
      · subst hq
        simp
      · have h1 : (k0 == q) = false := by simp [hq]
        have h2 : (q == k0) = false := by simp [Ne.symm hq]
        simp [h1, h2]
    · have hb : (k0 == k) = false := by simp [h]
      rw [show upsert ((k0, v0) :: rest) k v = (k0, v0) :: upsert rest k v from by
        simp [upsert, hb]]
      rw [hasKey_cons, ih, hasKey_cons]
      cases hq : (k0 == q) <;> cases hqk : (q == k) <;> simp

theorem lookupV_upsert_self (d : Obj) (k : String) (v : Val) :
    lookupV (upsert d k v) k = some v := by
  induction d with
  | nil => simp [upsert, lookupV, List.find?]
  | cons p rest ih =>
    obtain ⟨k0, v0⟩ := p
    by_cases h : k0 = k
    · subst h
      simp [upsert, lookupV, List.find?]
    · have hb : (k0 == k) = false := by simp [h]
      simp only [upsert, hb, if_false, lookupV, List.find?, hb]
      exact ih

theorem lookupV_cons (k0 : String) (v0 : Val) (rest : Obj) (q : String) :
    lookupV ((k0, v0) :: rest) q = if (k0 == q) = true then some v0 else lookupV rest q := by
  simp only [lookupV, List.find?]
  cases hq : (k0 == q) <;> simp

theorem chgFold_allnull (ct : String) (d : Obj) :
    ∀ (nd : Obj) (rel : Option (ℕ × String)),
    (∀ kv ∈ d, isChangeKey kv.1 = true → kv.2 = Val.vnull) →
    chgFold ct d nd rel = some (nd, rel) := by
  induction d with
  | nil =>
    intro nd rel _
    rfl
  | cons p rest ih =>
    intro nd rel hall
    obtain ⟨k, v⟩ := p
    have hcond : (isChangeKey k && !(v == Val.vnull)) = false := by
      cases hck : isChangeKey k
      · simp
      · have hv : v = Val.vnull := hall (k, v) (by simp) hck
        subst hv
        simp
    simp only [chgFold, hcond, Bool.false_eq_true, if_false]
    exact ih nd rel fun kv hkv h => hall kv (by simp [hkv]) h

theorem chgFold_keys (ct : String) (d : Obj) :
    ∀ (nd : Obj) (rel : Option (ℕ × String)) (nd' : Obj) (rel' : Option (ℕ × String)),
    chgFold ct d nd rel = some (nd', rel') →
    ∀ q, hasKey nd' q = true →
    hasKey nd q = true ∨ q = "Increase_Amount" ∨ q = "Decrease_Amount" := by
  induction d with
  | nil =>
    intro nd rel nd' rel' h q hq
    simp only [chgFold, Option.some.injEq, Prod.mk.injEq] at h
    rw [h.1]
    exact Or.inl hq
  | cons p rest ih =>
    intro nd rel nd' rel' h q hq
    obtain ⟨k, v⟩ := p
    simp only [chgFold] at h
    by_cases hcond : (isChangeKey k && !(v == Val.vnull)) = true
    · rw [if_pos hcond] at h
      cases v with
      | vnum z =>
        simp only [_format_fixed_scale] at h
        have h2 := ih _ _ _ _ h q hq
        rcases h2 with h2 | h2 | h2
        · rw [hasKey_upsert] at h2
          by_cases hz : z < 0
          · rw [if_pos hz] at h2
            cases hqq : (q == "Decrease" ++ "_Amount")
            · rw [hqq] at h2
              simp only [Bool.false_or] at h2
              exact Or.inl h2
            · have : q = "Decrease" ++ "_Amount" := by simpa using hqq
              rw [this]
              right
              right
              decide
          · rw [if_neg hz] at h2
            cases hqq : (q == "Increase" ++ "_Amount")
            · rw [hqq] at h2
              simp only [Bool.false_or] at h2
              exact Or.inl h2
            · have : q = "Increase" ++ "_Amount" := by simpa using hqq
              rw [this]
              right
              left
              decide
        · exact Or.inr (Or.inl h2)
        · exact Or.inr (Or.inr h2)
      | vstr t => simp at h
      | vnull => simp at h
    · rw [if_neg hcond] at h
      exact ih _ _ _ _ h q hq

theorem pctFold_allnull (d : Obj) :
    ∀ (nd : Obj),
    (∀ kv ∈ d, isPctKey kv.1 = true → kv.2 = Val.vnull) →
    pctFold d nd = some nd := by
  induction d with
  | nil =>
    intro nd _
    rfl
  | cons p rest ih =>
    intro nd hall
    obtain ⟨k, v⟩ := p
    have hcond : (isPctKey k && !(v == Val.vnull)) = false := by
      cases hck : isPctKey k
      · simp
      · have hv : v = Val.vnull := hall (k, v) (by simp) hck
        subst hv
        simp
    simp only [pctFold, hcond, Bool.false_eq_true, if_false]
    exact ih nd fun kv hkv h => hall kv (by simp [hkv]) h

theorem pctFold_keys (d : Obj) :
    ∀ (nd nd' : Obj),
    pctFold d nd = some nd' →
    ∀ q, hasKey nd' q = true →
    hasKey nd q = true ∨ q = "Increase_Percentage" ∨ q = "Decrease_Percentage" := by
  induction d with
  | nil =>
    intro nd nd' h q hq
    simp only [pctFold, Option.some.injEq] at h
    rw [h]
    exact Or.inl hq
  | cons p rest ih =>
    intro nd nd' h q hq
    obtain ⟨k, v⟩ := p
    simp only [pctFold] at h
    by_cases hcond : (isPctKey k && !(v == Val.vnull)) = true
    · rw [if_pos hcond] at h
      cases v with
      | vnum z =>
        have h2 := ih _ _ h q hq
        rcases h2 with h2 | h2 | h2
        · rw [hasKey_upsert] at h2
          by_cases hz : z < 0
          · rw [if_pos hz] at h2
            cases hqq : (q == "Decrease" ++ "_Percentage")
            · rw [hqq] at h2
              simp only [Bool.false_or] at h2
              exact Or.inl h2
            · have : q = "Decrease" ++ "_Percentage" := by simpa using hqq
              rw [this]
              right
              right
              decide
          · rw [if_neg hz] at h2
            cases hqq : (q == "Increase" ++ "_Percentage")
            · rw [hqq] at h2
              simp only [Bool.false_or] at h2
              exact Or.inl h2
            · have : q = "Increase" ++ "_Percentage" := by simpa using hqq
              rw [this]
              right
              left
              decide
        · exact Or.inr (Or.inl h2)
        · exact Or.inr (Or.inr h2)
      | vstr t => simp at h
      | vnull => simp at h
    · rw [if_neg hcond] at h
      exact ih _ _ h q hq

theorem lookupV_upsert_ne (d : Obj) (k : String) (v : Val) (q : String)
    (h : q ≠ k) : lookupV (upsert d k v) q = lookupV d q := by
  have hkq : (k == q) = false := by simp [Ne.symm h]
  induction d with
  | nil =>
    show lookupV [(k, v)] q = lookupV [] q
    rw [lookupV_cons, hkq]
    simp
  | cons p rest ih =>
    obtain ⟨k0, v0⟩ := p
    by_cases hk : k0 = k
    · subst hk
      rw [show upsert ((k0, v0) :: rest) k0 v = (k0, v) :: rest from by simp [upsert]]
      rw [lookupV_cons, lookupV_cons, hkq]
      simp
    · have hb : (k0 == k) = false := by simp [hk]
      rw [show upsert ((k0, v0) :: rest) k v = (k0, v0) :: upsert rest k v from by
        simp [upsert, hb]]
      rw [lookupV_cons, lookupV_cons, ih]

theorem amtFold_preserve (ct : String) (d : Obj) (rel : Option (ℕ × String)) :
    ∀ (names : List String) (nd nd' : Obj),
    amtFold ct d rel names nd = some nd' →
    ∀ q, (∀ n ∈ names, q ≠ n ∧ q ≠ n ++ "_FIX") →
    lookupV nd' q = lookupV nd q := by
  intro names
  induction names with
  | nil =>
    intro nd nd' h q _
    simp only [amtFold, Option.some.injEq] at h
    rw [h]
  | cons m ms ih =>
    intro nd nd' h q hq
    simp only [amtFold] at h
    by_cases hcond : (hasKey d m && !(strEndsWith m "_PCT_CHANGE")) = true
    · rw [if_pos hcond] at h
      cases hrs : relRender ct rel ((lookupV d m).getD Val.vnull) with
      | none =>
        rw [hrs] at h
        simp at h
      | some rs =>
        rw [hrs] at h
        cases hfs : fixRender ct ((lookupV d m).getD Val.vnull) with
        | none =>
          rw [hfs] at h
          simp at h
        | some fs =>
          rw [hfs] at h
          have hrec := ih _ _ h q fun n hn => hq n (by simp [hn])
          rw [hrec, lookupV_upsert_ne _ _ _ _ (hq m (by simp)).2,
            lookupV_upsert_ne _ _ _ _ (hq m (by simp)).1]
    · rw [if_neg hcond] at h
      exact ih _ _ h q fun n hn => hq n (by simp [hn])

theorem amtFold_keys (ct : String) (d : Obj) (rel : Option (ℕ × String)) :
    ∀ (names : List String) (nd nd' : Obj),
    amtFold ct d rel names nd = some nd' →
    ∀ q, hasKey nd' q = true →
    hasKey nd q = true ∨ q ∈ names ∨ ∃ n ∈ names, q = n ++ "_FIX" := by
  intro names
  induction names with
  | nil =>
    intro nd nd' h q hq
    simp only [amtFold, Option.some.injEq] at h
    rw [h]
    exact Or.inl hq
  | cons m ms ih =>
    intro nd nd' h q hq
    simp only [amtFold] at h
    by_cases hcond : (hasKey d m && !(strEndsWith m "_PCT_CHANGE")) = true
    · rw [if_pos hcond] at h
      cases hrs : relRender ct rel ((lookupV d m).getD Val.vnull) with
      | none =>
        rw [hrs] at h
        simp at h
      | some rs =>
        rw [hrs] at h
        cases hfs : fixRender ct ((lookupV d m).getD Val.vnull) with
        | none =>
          rw [hfs] at h
          simp at h
        | some fs =>
          rw [hfs] at h
          have hrec := ih _ _ h q hq
          rcases hrec with h2 | h2 | h2
          · rw [hasKey_upsert, hasKey_upsert] at h2
            cases hfix : (q == m ++ "_FIX")
            · rw [hfix] at h2
              cases hqm : (q == m)
              · rw [hqm] at h2
                simp only [Bool.false_or] at h2
                exact Or.inl h2
              · have : q = m := by simpa using hqm
                exact Or.inr (Or.inl (by simp [this]))
            · have : q = m ++ "_FIX" := by simpa using hfix
              exact Or.inr (Or.inr ⟨m, by simp, this⟩)
          · exact Or.inr (Or.inl (by simp [h2]))
          · obtain ⟨n, hn, hqn⟩ := h2
            exact Or.inr (Or.inr ⟨n, by simp [hn], hqn⟩)
    · rw [if_neg hcond] at h
      have hrec := ih _ _ h q hq
      rcases hrec with h2 | h2 | h2
      · exact Or.inl h2
      · exact Or.inr (Or.inl (by simp [h2]))
      · obtain ⟨n, hn, hqn⟩ := h2
        exact Or.inr (Or.inr ⟨n, by simp [hn], hqn⟩)

theorem amtFold_lookup (ct : String) (d : Obj) (rel : Option (ℕ × String)) :
    ∀ (names : List String) (nd nd' : Obj),
    amtFold ct d rel names nd = some nd' →
    names.Nodup →
    (∀ m ∈ names, ∀ m2 ∈ names, m ≠ m2 ++ "_FIX") →
    (∀ m ∈ names, strEndsWith m "_PCT_CHANGE" = false) →
    ∀ n ∈ names, hasKey d n = true →
    ∃ rs fs, relRender ct rel ((lookupV d n).getD Val.vnull) = some rs ∧
      fixRender ct ((lookupV d n).getD Val.vnull) = some fs ∧
      lookupV nd' n = some (Val.vstr rs) ∧
      lookupV nd' (n ++ "_FIX") = some (Val.vstr fs) := by
  intro names
  induction names with
  | nil =>
    intro nd nd' _ _ _ _ n hn
    simp at hn
  | cons m ms ih =>
    intro nd nd' h hnodup hnofix hpct n hn hdn
    simp only [amtFold] at h
    rcases List.mem_cons.mp hn with rfl | hn2
    · -- n is the head name being processed
      have hcond : (hasKey d n && !(strEndsWith n "_PCT_CHANGE")) = true := by
        rw [hdn, hpct n (by simp)]
        rfl
      rw [if_pos hcond] at h
      cases hrs : relRender ct rel ((lookupV d n).getD Val.vnull) with
      | none =>
        rw [hrs] at h
        simp at h
      | some rs =>
        rw [hrs] at h
        cases hfs : fixRender ct ((lookupV d n).getD Val.vnull) with
        | none =>
          rw [hfs] at h
          simp at h
        | some fs =>
          rw [hfs] at h
          refine ⟨rs, fs, rfl, rfl, ?_, ?_⟩
          · have hpres := amtFold_preserve ct d rel ms _ _ h n ?_
            · rw [hpres, lookupV_upsert_ne _ _ _ _ (fun hc => hnofix n (by simp) n (by simp) hc),
                lookupV_upsert_self]
            · intro n2 hn2
              constructor
              · intro hc
                subst hc
                exact (List.nodup_cons.mp hnodup).1 hn2
              · exact hnofix n (by simp) n2 (by simp [hn2])
          · have hpres := amtFold_preserve ct d rel ms _ _ h (n ++ "_FIX") ?_
            · rw [hpres, lookupV_upsert_self]
            · intro n2 hn2
              constructor
              · intro hc
                exact hnofix n2 (by simp [hn2]) n (by simp) hc.symm
              · intro hc
                have : n = n2 := strFix_inj hc
                subst this
                exact (List.nodup_cons.mp hnodup).1 hn2
    · -- n occurs further down the list
      by_cases hcond : (hasKey d m && !(strEndsWith m "_PCT_CHANGE")) = true
      · rw [if_pos hcond] at h
        cases hrs : relRender ct rel ((lookupV d m).getD Val.vnull) with
        | none =>
          rw [hrs] at h
          simp at h
        | some rs =>
          rw [hrs] at h
          cases hfs : fixRender ct ((lookupV d m).getD Val.vnull) with
          | none =>
            rw [hfs] at h
            simp at h
          | some fs =>
            rw [hfs] at h
            exact ih _ _ h (List.nodup_cons.mp hnodup).2
              (fun a ha b hb => hnofix a (by simp [ha]) b (by simp [hb]))
              (fun a ha => hpct a (by simp [ha])) n hn2 hdn
      · rw [if_neg hcond] at h
        exact ih _ _ h (List.nodup_cons.mp hnodup).2
          (fun a ha b hb => hnofix a (by simp [ha]) b (by simp [hb]))
          (fun a ha => hpct a (by simp [ha])) n hn2 hdn

theorem passFold_lookup_of_hasKey (d : Obj) :
    ∀ (nd : Obj) (q : String), hasKey nd q = true →
    lookupV (passFold d nd) q = lookupV nd q := by
  induction d with
  | nil =>
    intro nd q _
    rfl
  | cons p rest ih =>
    intro nd q hq
    obtain ⟨k, v⟩ := p
    simp only [passFold]
    by_cases hcond : (hasKey nd k || strEndsWith k "_CHANGE" || strEndsWith k "_PCT_CHANGE") = true
    · rw [if_pos hcond]
      exact ih nd q hq
    · rw [if_neg hcond]
      rw [ih _ q (by rw [hasKey_append, hq]; rfl)]
      exact lookupV_append_left nd [(k, v)] q hq

theorem passFold_lookup_of_absent (d : Obj) :
    ∀ (nd : Obj) (q : String), hasKey nd q = false →
    strEndsWith q "_CHANGE" = false → strEndsWith q "_PCT_CHANGE" = false →
    lookupV (passFold d nd) q = lookupV d q := by
  induction d with
  | nil =>
    intro nd q hq _ _
    show lookupV nd q = none
    exact (lookupV_eq_none_iff nd q).mpr hq
  | cons p rest ih =>
    intro nd q hq hqc hqp
    obtain ⟨k, v⟩ := p
    simp only [passFold]
    by_cases hkq : k = q
    · subst hkq
      have hcond : (hasKey nd k || strEndsWith k "_CHANGE" || strEndsWith k "_PCT_CHANGE") = false := by
        rw [hq, hqc, hqp]
        rfl
      rw [if_neg (by rw [hcond]; simp)]
      have hk2 : hasKey (nd ++ [(k, v)]) k = true := by
        rw [hasKey_append, hq]
        simp [hasKey]
      rw [passFold_lookup_of_hasKey rest _ k hk2,
        lookupV_append_right nd [(k, v)] k hq]
      simp [lookupV, List.find?, lookupV_cons]
    · have hb : (k == q) = false := by simp [hkq]
      rw [show lookupV ((k, v) :: rest) q = lookupV rest q from by rw [lookupV_cons, hb]; simp]
      by_cases hcond : (hasKey nd k || strEndsWith k "_CHANGE" || strEndsWith k "_PCT_CHANGE") = true
      · rw [if_pos hcond]
        exact ih nd q hq hqc hqp
      · rw [if_neg hcond]
        refine ih _ q ?_ hqc hqp
        rw [hasKey_append, hq]
        simp [hasKey, hb]

theorem passFold_not_suffixed (d : Obj) :
    ∀ (nd : Obj) (q : String), hasKey nd q = false →
    (strEndsWith q "_CHANGE" = true ∨ strEndsWith q "_PCT_CHANGE" = true) →
    hasKey (passFold d nd) q = false := by
  induction d with
  | nil =>
    intro nd q hq _
    exact hq
  | cons p rest ih =>
    intro nd q hq hsuf
    obtain ⟨k, v⟩ := p
    simp only [passFold]
    by_cases hcond : (hasKey nd k || strEndsWith k "_CHANGE" || strEndsWith k "_PCT_CHANGE") = true
    · rw [if_pos hcond]
      exact ih nd q hq hsuf
    · rw [if_neg hcond]
      refine ih _ q ?_ hsuf
      rw [hasKey_append, hq]
      have hkq : k ≠ q := by
        intro hc
        subst hc
        simp only [Bool.or_eq_true, not_or] at hcond
        rcases hsuf with hs | hs
        · exact absurd hs (by simpa using hcond.1.2)
        · exact absurd hs (by simpa using hcond.2)
      simp [hasKey, hkq]

theorem passFold_keys (d : Obj) :
    ∀ (nd : Obj) (q : String), hasKey (passFold d nd) q = true →
    hasKey nd q = true ∨ hasKey d q = true := by
  induction d with
  | nil =>
    intro nd q hq
    exact Or.inl hq
  | cons p rest ih =>
    intro nd q hq
    obtain ⟨k, v⟩ := p
    simp only [passFold] at hq
    by_cases hcond : (hasKey nd k || strEndsWith k "_CHANGE" || strEndsWith k "_PCT_CHANGE") = true
    · rw [if_pos hcond] at hq
      rcases ih nd q hq with h2 | h2
      · exact Or.inl h2
      · exact Or.inr (by rw [hasKey_cons, h2]; simp)
    · rw [if_neg hcond] at hq
      rcases ih _ q hq with h2 | h2
      · rw [hasKey_append] at h2
        cases hnd : hasKey nd q
        · rw [hnd] at h2
          simp only [Bool.false_or] at h2
          have : k = q := by
            by_contra hc
            simp [hasKey, hc] at h2
          exact Or.inr (by rw [hasKey_cons, show (k == q) = true from by simp [this]]; simp)
        · exact Or.inl rfl
      · exact Or.inr (by rw [hasKey_cons, h2]; simp)

theorem hasKey_of_lookup {d : Obj} {k : String} {v : Val}
    (h : lookupV d k = some v) : hasKey d k = true := by
  cases hk : hasKey d k
  · rw [(lookupV_eq_none_iff d k).mpr hk] at h
    simp at h
  · rfl

/-! ## Claim C8 (amended), its counterexample and witness -/

/-- C8 as amended: `_format_dict` emits, for each of the four hard-coded
amount fields `BUSINESS_DAY`, `PREVIOUS_DAY`, `SRC_MTD`, `TL_MTD` present
at a node, a presentation copy under the original field name rendered with
the relative divisor/suffix derived from the node's change value (the
string `"N/A"` when there is none) AND a `<field>_FIX` copy rendered with
the fixed-scale policy computed independently from that field's own value
with 2 decimals — but NOT for the Level-2b sub-line month-to-date field:
`MRL_MTD` passes through unchanged and no `MRL_MTD_FIX` key is emitted. -/
theorem claim_C8_amount_fix_fields (d : Obj) (ct : String) (out : Obj)
    (hnodup : (d.map Prod.fst).Nodup)
    (hout : _format_dict d ct = some out) :
    (∀ rel, relScaleOf d ct = some rel →
      ∀ n ∈ amtNames, hasKey d n = true →
      ∃ rs fs, relRender ct rel ((lookupV d n).getD Val.vnull) = some rs ∧
        fixRender ct ((lookupV d n).getD Val.vnull) = some fs ∧
        lookupV out n = some (Val.vstr rs) ∧
        lookupV out (n ++ "_FIX") = some (Val.vstr fs)) ∧
    lookupV out "MRL_MTD" = lookupV d "MRL_MTD" ∧
    (hasKey d "MRL_MTD_FIX" = false → hasKey out "MRL_MTD_FIX" = false) := by
  clear hnodup
  unfold _format_dict at hout
  cases h1 : chgFold ct d [] none with
  | none =>
    rw [h1] at hout
    simp at hout
  | some p =>
    obtain ⟨nd1, rel0⟩ := p
    rw [h1] at hout
    dsimp only [] at hout
    cases h2 : pctFold d nd1 with
    | none =>
      rw [h2] at hout
      simp at hout
    | some nd2 =>
      rw [h2] at hout
      dsimp only [] at hout
      cases h3 : amtFold ct d rel0 amtNames nd2 with
      | none =>
        rw [h3] at hout
        simp at hout
      | some nd3 =>
        rw [h3] at hout
        dsimp only [] at hout
        have hout' : out = passFold d nd3 := (Option.some.inj hout).symm
        have hnd3 : ∀ q, hasKey nd3 q = true →
            q = "Increase_Amount" ∨ q = "Decrease_Amount" ∨
            q = "Increase_Percentage" ∨ q = "Decrease_Percentage" ∨
            q ∈ amtNames ∨ ∃ n ∈ amtNames, q = n ++ "_FIX" := by
          intro q hq
          rcases amtFold_keys ct d rel0 amtNames nd2 nd3 h3 q hq with h | h | h
          · rcases pctFold_keys d nd1 nd2 h2 q h with h' | h' | h'
            · rcases chgFold_keys ct d [] none nd1 rel0 h1 q h' with h'' | h'' | h''
              · simp [hasKey] at h''
              · exact Or.inl h''
              · exact Or.inr (Or.inl h'')
            · exact Or.inr (Or.inr (Or.inl h'))
            · exact Or.inr (Or.inr (Or.inr (Or.inl h')))
          · exact Or.inr (Or.inr (Or.inr (Or.inr (Or.inl h))))
          · exact Or.inr (Or.inr (Or.inr (Or.inr (Or.inr h))))
        refine ⟨?_, ?_, ?_⟩
        · intro rel hrel n hn hdn
          have hrel0 : rel = rel0 := by
            rw [relScaleOf, h1] at hrel
            simpa using hrel.symm
          subst hrel0
          obtain ⟨rs, fs, hrs, hfs, hl1, hl2⟩ :=
            amtFold_lookup ct d rel amtNames nd2 nd3 h3 (by decide) (by decide)
              (by decide) n hn hdn
          refine ⟨rs, fs, hrs, hfs, ?_, ?_⟩
          · rw [hout', passFold_lookup_of_hasKey d nd3 n (hasKey_of_lookup hl1)]
            exact hl1
          · rw [hout', passFold_lookup_of_hasKey d nd3 (n ++ "_FIX") (hasKey_of_lookup hl2)]
            exact hl2
        · rw [hout']
          refine passFold_lookup_of_absent d nd3 "MRL_MTD" ?_ (by decide) (by decide)
          cases hk : hasKey nd3 "MRL_MTD"
          · rfl
          · exfalso
            rcases hnd3 _ hk with h | h | h | h | h | ⟨n, hn, h⟩
            · exact absurd h (by decide)
            · exact absurd h (by decide)
            · exact absurd h (by decide)
            · exact absurd h (by decide)
            · exact absurd h (by decide)
            · have hn4 : n = "BUSINESS_DAY" ∨ n = "PREVIOUS_DAY" ∨ n = "SRC_MTD" ∨
                  n = "TL_MTD" := by simpa [amtNames] using hn
              rcases hn4 with rfl | rfl | rfl | rfl <;> exact absurd h (by decide)
        · intro hdfix
          cases hk : hasKey out "MRL_MTD_FIX"
          · rfl
          · exfalso
            rw [hout'] at hk
            rcases passFold_keys d nd3 _ hk with h | h
            · rcases hnd3 _ h with h' | h' | h' | h' | h' | ⟨n, hn, h'⟩
              · exact absurd h' (by decide)
              · exact absurd h' (by decide)
              · exact absurd h' (by decide)
              · exact absurd h' (by decide)
              · exact absurd h' (by decide)
              · have hn4 : n = "BUSINESS_DAY" ∨ n = "PREVIOUS_DAY" ∨ n = "SRC_MTD" ∨
                    n = "TL_MTD" := by simpa [amtNames] using hn
                rcases hn4 with rfl | rfl | rfl | rfl <;> exact absurd h' (by decide)
            · rw [hdfix] at h
              simp at h

/-- Counterexample to C8 as stated: on a sub-line node the formatter leaves
`MRL_MTD` as the raw number (no rendered presentation copy) and emits no
`MRL_MTD_FIX` key, although it does emit `BUSINESS_DAY_FIX` — the hard-coded
amount-key list of the third loop omits `MRL_MTD`. -/
theorem claim_C8_counterexample_mrl_mtd :
    ((_format_dict dC8mrl "USD").map (fun o => lookupV o "MRL_MTD") =
      some (some (Val.vnum 5000))) ∧
    ((_format_dict dC8mrl "USD").map (fun o => lookupV o "MRL_MTD_FIX") = some none) ∧
    ((_format_dict dC8mrl "USD").map (fun o => lookupV o "BUSINESS_DAY_FIX") =
      some (some (Val.vstr "$7.00K"))) := by
  refine ⟨by decide, by decide, by decide⟩

/-- Witness for C8: the amended theorem applied at the concrete node
`dC8w` with currency `"USD"`. -/
theorem claim_C8_amount_fix_fields_witness :
    lookupV outC8w "BUSINESS_DAY" = some (Val.vstr "$1,500K") ∧
    lookupV outC8w "BUSINESS_DAY_FIX" = some (Val.vstr "$1.50M") ∧
    hasKey outC8w "MRL_MTD_FIX" = false := by
  have h := claim_C8_amount_fix_fields dC8w "USD" outC8w (by decide) (by decide)
  obtain ⟨rs, fs, hrs, hfs, hl1, hl2⟩ :=
    h.1 (some (1000, "K")) (by decide) "BUSINESS_DAY" (by decide) (by decide)
  have hrs2 : rs = "$1,500K" := Option.some.inj
    (hrs.symm.trans (by decide : relRender "USD" (some (1000, "K"))
      ((lookupV dC8w "BUSINESS_DAY").getD Val.vnull) = some "$1,500K"))
  have hfs2 : fs = "$1.50M" := Option.some.inj
    (hfs.symm.trans (by decide : fixRender "USD"
      ((lookupV dC8w "BUSINESS_DAY").getD Val.vnull) = some "$1.50M"))
  refine ⟨?_, ?_, h.2.2 (by decide)⟩
  · rw [← hrs2]
    exact hl1
  · rw [← hfs2]
    exact hl2

/-! ## Claim C10 -/

/-- C10: for a node processed by the formatter, (a) when no `*_CHANGE` key
(other than `*_PCT_CHANGE`) holds a non-null value, every one of the
hard-coded amount fields present at the node is replaced under its original
name by the literal string `"N/A"` (no relative-scaled amount); (b) every
key ending in `_CHANGE` or `_PCT_CHANGE` whose value is null is absent from
the output; (c) if moreover no change key is non-null then the output holds
no `Increase_Amount`/`Decrease_Amount` replacement, and (d) if no
`*_PCT_CHANGE` key is non-null the output holds no
`Increase_Percentage`/`Decrease_Percentage` replacement (assuming the input
node does not itself carry those replacement names, as no node of the
pipeline does). -/
theorem claim_C10_null_changes (d : Obj) (ct : String) (out : Obj)
    (hout : _format_dict d ct = some out) :
    ((∀ kv ∈ d, isChangeKey kv.1 = true → kv.2 = Val.vnull) →
      ∀ n ∈ amtNames, hasKey d n = true → lookupV out n = some (Val.vstr "N/A")) ∧
    (∀ kv ∈ d,
      (strEndsWith kv.1 "_CHANGE" = true ∨ strEndsWith kv.1 "_PCT_CHANGE" = true) →
      kv.2 = Val.vnull → lookupV out kv.1 = none) ∧
    ((∀ kv ∈ d, isChangeKey kv.1 = true → kv.2 = Val.vnull) →
      hasKey d "Increase_Amount" = false → hasKey d "Decrease_Amount" = false →
      hasKey out "Increase_Amount" = false ∧ hasKey out "Decrease_Amount" = false) ∧
    ((∀ kv ∈ d, isPctKey kv.1 = true → kv.2 = Val.vnull) →
      hasKey d "Increase_Percentage" = false → hasKey d "Decrease_Percentage" = false →
      hasKey out "Increase_Percentage" = false ∧ hasKey out "Decrease_Percentage" = false) := by
  unfold _format_dict at hout
  cases h1 : chgFold ct d [] none with
  | none =>
    rw [h1] at hout
    simp at hout
  | some p =>
    obtain ⟨nd1, rel0⟩ := p
    rw [h1] at hout
    dsimp only [] at hout
    cases h2 : pctFold d nd1 with
    | none =>
      rw [h2] at hout
      simp at hout
    | some nd2 =>
      rw [h2] at hout
      dsimp only [] at hout
      cases h3 : amtFold ct d rel0 amtNames nd2 with
      | none =>
        rw [h3] at hout
        simp at hout
      | some nd3 =>
        rw [h3] at hout
        dsimp only [] at hout
        have hout' : out = passFold d nd3 := (Option.some.inj hout).symm
        have hnd3 : ∀ q, hasKey nd3 q = true →
            q = "Increase_Amount" ∨ q = "Decrease_Amount" ∨
            q = "Increase_Percentage" ∨ q = "Decrease_Percentage" ∨
            q ∈ amtNames ∨ ∃ n ∈ amtNames, q = n ++ "_FIX" := by
          intro q hq
          rcases amtFold_keys ct d rel0 amtNames nd2 nd3 h3 q hq with h | h | h
          · rcases pctFold_keys d nd1 nd2 h2 q h with h' | h' | h'
            · rcases chgFold_keys ct d [] none nd1 rel0 h1 q h' with h'' | h'' | h''
              · simp [hasKey] at h''
              · exact Or.inl h''
              · exact Or.inr (Or.inl h'')
            · exact Or.inr (Or.inr (Or.inl h'))
            · exact Or.inr (Or.inr (Or.inr (Or.inl h')))
          · exact Or.inr (Or.inr (Or.inr (Or.inr (Or.inl h))))
          · exact Or.inr (Or.inr (Or.inr (Or.inr (Or.inr h))))
        refine ⟨?_, ?_, ?_, ?_⟩
        · intro hno n hn hdn
          have hch : chgFold ct d [] none = some ([], none) :=
            chgFold_allnull ct d [] none hno
          have hrel0 : rel0 = none := by
            have hsm := h1.symm.trans hch
            simp only [Option.some.injEq, Prod.mk.injEq] at hsm
            exact hsm.2
          subst hrel0
          obtain ⟨rs, fs, hrs, hfs, hl1, _hl2⟩ :=
            amtFold_lookup ct d none amtNames nd2 nd3 h3 (by decide) (by decide)
              (by decide) n hn hdn
          have hrs2 : rs = "N/A" := by
            simpa [relRender] using hrs.symm
          rw [hout', passFold_lookup_of_hasKey d nd3 n (hasKey_of_lookup hl1), hl1, hrs2]
        · intro kv hkv hsuf _hnull
          obtain ⟨q, v⟩ := kv
          dsimp only [] at hsuf ⊢
          rw [hout']
          have hnd3q : hasKey nd3 q = false := by
            cases hk : hasKey nd3 q
            · rfl
            · exfalso
              rcases hnd3 _ hk with h | h | h | h | h | ⟨n, hn, h⟩
              · subst h
                rcases hsuf with hs | hs <;> exact absurd hs (by decide)
              · subst h
                rcases hsuf with hs | hs <;> exact absurd hs (by decide)
              · subst h
                rcases hsuf with hs | hs <;> exact absurd hs (by decide)
              · subst h
                rcases hsuf with hs | hs <;> exact absurd hs (by decide)
              · rcases (by simpa [amtNames] using h :
                    q = "BUSINESS_DAY" ∨ q = "PREVIOUS_DAY" ∨ q = "SRC_MTD" ∨
                    q = "TL_MTD") with rfl | rfl | rfl | rfl <;>
                  (rcases hsuf with hs | hs <;> exact absurd hs (by decide))
              · rcases (by simpa [amtNames] using hn :
                    n = "BUSINESS_DAY" ∨ n = "PREVIOUS_DAY" ∨ n = "SRC_MTD" ∨
                    n = "TL_MTD") with rfl | rfl | rfl | rfl <;>
                  (subst h
                   rcases hsuf with hs | hs <;> exact absurd hs (by decide))
          rw [lookupV_eq_none_iff]
          exact passFold_not_suffixed d nd3 q hnd3q hsuf
        · intro hno hdIA hdDA
          have hch : chgFold ct d [] none = some ([], none) :=
            chgFold_allnull ct d [] none hno
          have hnd1 : nd1 = [] := by
            have hsm := h1.symm.trans hch
            simp only [Option.some.injEq, Prod.mk.injEq] at hsm
            exact hsm.1
          subst hnd1
          have key_out : ∀ q : String, hasKey d q = false →
              (q ∈ amtNames → False) →
              (∀ n, n ∈ amtNames → q = n ++ "_FIX" → False) →
              (q = "Increase_Percentage" → False) →
              (q = "Decrease_Percentage" → False) →
              hasKey out q = false := by
            intro q hdq hqa hqf hqip hqdp
            cases hk : hasKey out q
            · rfl
            · exfalso
              rw [hout'] at hk
              rcases passFold_keys d nd3 _ hk with h | h
              · rcases amtFold_keys ct d rel0 amtNames nd2 nd3 h3 _ h with h' | h' | ⟨n, hn, h'⟩
                · rcases pctFold_keys d [] nd2 h2 _ h' with h2a | h2a | h2a
                  · simp [hasKey] at h2a
                  · exact hqip h2a
                  · exact hqdp h2a
                · exact hqa h'
                · exact hqf n hn h'
              · rw [hdq] at h
                simp at h
          constructor
          · refine key_out "Increase_Amount" hdIA (by decide) ?_ (by decide) (by decide)
            intro n hn
            rcases (by simpa [amtNames] using hn :
                n = "BUSINESS_DAY" ∨ n = "PREVIOUS_DAY" ∨ n = "SRC_MTD" ∨
                n = "TL_MTD") with rfl | rfl | rfl | rfl <;> exact fun h => by
              exact absurd h (by decide)
          · refine key_out "Decrease_Amount" hdDA (by decide) ?_ (by decide) (by decide)
            intro n hn
            rcases (by simpa [amtNames] using hn :
                n = "BUSINESS_DAY" ∨ n = "PREVIOUS_DAY" ∨ n = "SRC_MTD" ∨
                n = "TL_MTD") with rfl | rfl | rfl | rfl <;> exact fun h => by
              exact absurd h (by decide)
        · intro hno hdIP hdDP
          have hpc : pctFold d nd1 = some nd1 := pctFold_allnull d nd1 hno
          have hnd2 : nd2 = nd1 := by
            have hsm := h2.symm.trans hpc
            simpa using hsm
          subst hnd2
          have key_out : ∀ q : String, hasKey d q = false →
              (q ∈ amtNames → False) →
              (∀ n, n ∈ amtNames → q = n ++ "_FIX" → False) →
              (q = "Increase_Amount" → False) →
              (q = "Decrease_Amount" → False) →
              hasKey out q = false := by
            intro q hdq hqa hqf hqia hqda
            cases hk : hasKey out q
            · rfl
            · exfalso
              rw [hout'] at hk
              rcases passFold_keys d nd3 _ hk with h | h
              · rcases amtFold_keys ct d rel0 amtNames nd2 nd3 h3 _ h with h' | h' | ⟨n, hn, h'⟩
                · rcases chgFold_keys ct d [] none nd2 rel0 h1 _ h' with h2a | h2a | h2a
                  · simp [hasKey] at h2a
                  · exact hqia h2a
                  · exact hqda h2a
                · exact hqa h'
                · exact hqf n hn h'
              · rw [hdq] at h
                simp at h
          constructor
          · refine key_out "Increase_Percentage" hdIP (by decide) ?_ (by decide) (by decide)
            intro n hn
            rcases (by simpa [amtNames] using hn :
                n = "BUSINESS_DAY" ∨ n = "PREVIOUS_DAY" ∨ n = "SRC_MTD" ∨
                n = "TL_MTD") with rfl | rfl | rfl | rfl <;> exact fun h => by
              exact absurd h (by decide)
          · refine key_out "Decrease_Percentage" hdDP (by decide) ?_ (by decide) (by decide)
            intro n hn
            rcases (by simpa [amtNames] using hn :
                n = "BUSINESS_DAY" ∨ n = "PREVIOUS_DAY" ∨ n = "SRC_MTD" ∨
                n = "TL_MTD") with rfl | rfl | rfl | rfl <;> exact fun h => by
              exact absurd h (by decide)

/-- Witness for C10: the theorem applied at the concrete node `dC10w`
(null change and percentage-change, `BUSINESS_DAY` 1500). -/
theorem claim_C10_null_changes_witness :
    lookupV outC10w "BUSINESS_DAY" = some (Val.vstr "N/A") ∧
    lookupV outC10w "TL_CHANGE" = none ∧
    hasKey outC10w "Increase_Amount" = false := by
  have h := claim_C10_null_changes dC10w "USD" outC10w (by decide)
  refine ⟨?_, ?_, ?_⟩
  · exact h.1 (by decide) "BUSINESS_DAY" (by decide) (by decide)
  · exact h.2.1 ("TL_CHANGE", Val.vnull) (by decide) (Or.inl (by decide)) rfl
  · exact (h.2.2.1 (by decide) (by decide) (by decide)).1

end BS








